import Mathlib

/-!
Verification of the EXORCISM ladder-test validation tool.

The C++ sources (`Exorcism.c` and the standalone `CheckLogFiles.c`) are
shallowly embedded below.  Filenames and text lines are modelled as lists
of characters; the filesystem state a run directory presents to the tool
is modelled by the `FSFile` / `RunDir` structures.  Every definition is a
direct translation of the corresponding C++ function; theorems about the
spec claims follow the definitions.
-/

set_option maxRecDepth 4000

namespace Exorcism

/-- Filenames and text lines, modelled as the byte strings the C++ code
manipulates. -/
abbrev Name := List Char

/-- `TString::BeginsWith` / `std::string` starts-with test. -/
def beginsWith (s pre : Name) : Bool := pre.isPrefixOf s

/-- `TString::EndsWith` test. -/
def endsWith (s suf : Name) : Bool := suf.isSuffixOf s

/-- `TString::operator()(start, len)`: substring of `s` starting at
position `start`, of length `len`. -/
def subStr (s : Name) (start len : Nat) : Name := (s.drop start).take len

/-- `TString::Index(pat)` / `std::string::find`: first position at which
`pat` occurs in `s`, with `none` playing the role of `kNPOS`. -/
def strIndex : Name → Name → Option Nat
  | [], pat => if pat.isPrefixOf ([] : Name) then some 0 else none
  | c :: t, pat =>
    if pat.isPrefixOf (c :: t) then some 0 else (strIndex t pat).map (· + 1)

/-- `TString::Index(pat, from)`: first occurrence at or after `from`. -/
def strIndexFrom (s pat : Name) (start : Nat) : Option Nat :=
  (strIndex (s.drop start) pat).map (· + start)

/-- `TString::Contains` / `find != npos`. -/
def containsSub (s pat : Name) : Bool := (strIndex s pat).isSome

/-- `line.find_first_not_of(" \t") == std::string::npos`: the line consists
only of spaces and tabs. -/
def isBlank (line : Name) : Bool := line.all (fun c => c = ' ' || c = '\t')

/-- `atoi` on an all-digit string. -/
def parseDigits (s : Name) : Nat := s.foldl (fun n c => n * 10 + (c.toNat - 48)) 0

/-- The literal content marker scanned for by `CheckDataFileContent`. -/
def marker : Name := "LV_AFT_CONFIG_P".toList

def dotName : Name := ".".toList

def dotdotName : Name := "..".toList

def dataSuffix : Name := "_data.dat".toList

def logFileSuffix : Name := "_log.log".toList

def testerPre : Name := "tester_febs_".toList

def arrMark : Name := "_arr_".toList

def hwMark : Name := "_HW_".toList

def setMark : Name := "_SET_".toList

def electTxtSuffix : Name := "_elect.txt".toList

def holesTxtSuffix : Name := "_holes.txt".toList

def electRootSuffix : Name := "_elect.root".toList

def holesRootSuffix : Name := "_holes.root".toList

def dotLog : Name := ".log".toList

def dotRoot : Name := ".root".toList

def dotTxt : Name := ".txt".toList

def dotPdf : Name := ".pdf".toList

def modulePre : Name := "module_test_".toList

/-- The expected name of the run's main log file, `<run>_log.log`. -/
def logName (run : Name) : Name := run ++ logFileSuffix

/-- Inner loop of `CheckDataFileContent`: after the marker line has been
found, walk the remaining lines skipping blank ones, and report success as
soon as two non-blank lines have been seen. -/
def validLinesAfter : List Name → Nat → Bool
  | [], _ => false
  | l :: ls, k =>
    if isBlank l then validLinesAfter ls k
    else if k + 1 ≥ 2 then true
    else validLinesAfter ls (k + 1)

/-- `CheckDataFileContent` (src/Exorcism.c lines 203–226, identical logic in
src/CheckLogFiles.c lines 17–48), applied to the file's lines: scan for the
first line containing the marker, then require two subsequent non-blank
lines. -/
def checkDataFileContentLines : List Name → Bool
  | [] => false
  | l :: ls =>
    if containsSub l marker then validLinesAfter ls 0
    else checkDataFileContentLines ls

/-- One filesystem entry as seen by the tool: its name, whether it is a
subdirectory, whether `std::ifstream` can open it, its size, its text
lines, and whether `TFile::Open` succeeds without producing a zombie. -/
structure FSFile where
  name : Name
  isDirectory : Bool := false
  openable : Bool := true
  size : Nat := 0
  lines : List Name := []
  rootOpenable : Bool := true
  deriving Repr, DecidableEq

/-- `CheckDataFileContent` on a modelled file: the function reopens the
file itself, so an unopenable file is invalid. -/
def checkDataFileContent (f : FSFile) : Bool :=
  f.openable && checkDataFileContentLines f.lines

/-! ### Validation flag constants (src/Exorcism.c lines 47–100) -/

def FLAG_DIR_MISSING : Nat := 0x01

def FLAG_LOG_MISSING : Nat := 0x02

def FLAG_DATA_MISSING : Nat := 0x04

def FLAG_NO_FEB_FILE : Nat := 0x08

def FLAG_FILE_OPEN : Nat := 0x10

def FLAG_DATA_EMPTY : Nat := 0x20

def FLAG_DATA_INVALID : Nat := 0x40

def FLAG_UNEXPECTED_FILES : Nat := 0x80

def FLAG_CONN_FOLDER_MISSING : Nat := 0x01

def FLAG_DIR_ACCESS : Nat := 0x02

def FLAG_ELECTRON_COUNT : Nat := 0x04

def FLAG_HOLE_COUNT : Nat := 0x08

def FLAG_FILE_OPEN_CONN : Nat := 0x10

def FLAG_UNEXPECTED_FILES_CONN : Nat := 0x20

def FLAG_TRIM_FOLDER_MISSING : Nat := 0x01

def FLAG_DIR_ACCESS_TRIM : Nat := 0x02

def FLAG_ELECTRON_COUNT_TRIM : Nat := 0x04

def FLAG_HOLE_COUNT_TRIM : Nat := 0x08

def FLAG_FILE_OPEN_TRIM : Nat := 0x10

def FLAG_UNEXPECTED_FILES_TRIM : Nat := 0x20

def FLAG_PSCAN_FOLDER_MISSING : Nat := 0x01

def FLAG_DIR_ACCESS_PSCAN : Nat := 0x02

def FLAG_ELECTRON_TXT : Nat := 0x04

def FLAG_HOLE_TXT : Nat := 0x08

def FLAG_ELECTRON_ROOT : Nat := 0x10

def FLAG_HOLE_ROOT : Nat := 0x20

def FLAG_FILE_OPEN_PSCAN : Nat := 0x40

def FLAG_UNEXPECTED_FILES_PSCAN : Nat := 0x80

def FLAG_MODULE_ROOT : Nat := 0x100

def FLAG_MODULE_TXT : Nat := 0x200

def FLAG_MODULE_PDF : Nat := 0x400

/-- `flags & mask` is non-zero: the bitmask test used throughout the C++
code (`result.flags & FLAG_...`). -/
def hasFlag (flags mask : Nat) : Prop := flags &&& mask ≠ 0

instance (flags mask : Nat) : Decidable (hasFlag flags mask) := by
  unfold hasFlag
  infer_instance

/-- `ValidationResult` (src/Exorcism.c lines 106–132). -/
structure ValidationResult where
  flags : Nat := 0
  openErrorFiles : List Name := []
  unexpectedFiles : List Name := []
  emptyFiles : List Name := []
  invalidFiles : List Name := []
  moduleErrorFiles : List Name := []
  dataFileCount : Nat := 0
  nonEmptyDataCount : Nat := 0
  validDataCount : Nat := 0
  foundFebFile : Bool := false
  logExists : Bool := false
  electronCount : Nat := 0
  holeCount : Nat := 0
  electronTxtCount : Nat := 0
  holeTxtCount : Nat := 0
  electronRootCount : Nat := 0
  holeRootCount : Nat := 0
  deriving Repr, DecidableEq

/-- Module-level files of the pscan area, checked by direct path before the
directory listing is read. -/
structure PscanModuleInfo where
  rootPresent : Bool := true
  rootOpenable : Bool := true
  txtPresent : Bool := true
  txtOpenable : Bool := true
  txtSize : Nat := 1
  pdfPresent : Bool := true
  deriving Repr, DecidableEq

/-- The filesystem state one run directory presents to the validators:
the run (directory) name, existence of the directory and of the main log
file, and the listings of the run directory and its three sub-areas.
A listing of `none` models `GetListOfFiles` returning null. -/
structure RunDir where
  run : Name
  dirExists : Bool := true
  logPresent : Bool := true
  logOpenable : Bool := true
  listing : Option (List FSFile) := some []
  trimExists : Bool := true
  trimListing : Option (List FSFile) := some []
  pscanExists : Bool := true
  pscanModule : PscanModuleInfo := {}
  pscanListing : Option (List FSFile) := some []
  connExists : Bool := true
  connListing : Option (List FSFile) := some []
  deriving Repr, DecidableEq

/-! ### `CheckLogFiles` (src/Exorcism.c lines 250–527) -/

/-- The per-file record built by the `CheckLogFiles` scanning loop
(`struct FileInfo`, src/Exorcism.c lines 286–291; the full path is the
directory path plus the name and is not modelled separately). -/
structure FileInfo where
  fileName : Name
  dateTimePattern : Name := []
  isSpecialCase : Bool := false
  deriving Repr, DecidableEq

/-- Scanning state of the `CheckLogFiles` file-processing loop. -/
structure LogScan where
  result : ValidationResult := {}
  dataFiles : List FileInfo := []
  testerFiles : List FileInfo := []
  deriving Repr, DecidableEq

/-- Data-file content validation inside the `CheckLogFiles` loop
(src/Exorcism.c lines 341–367): the record is pushed onto `dataFiles`,
then the file is opened at its end, the size decides empty vs non-empty,
and non-empty files are content-checked. -/
def processData (s : LogScan) (r : ValidationResult) (info : FileInfo) (f : FSFile) : LogScan :=
  let s1 : LogScan := { s with dataFiles := s.dataFiles ++ [info], result := r }
  if !f.openable then
    { s1 with result := { s1.result with
        openErrorFiles := s1.result.openErrorFiles ++ [f.name],
        flags := s1.result.flags ||| FLAG_FILE_OPEN } }
  else if f.size > 0 then
    let r2 := { s1.result with nonEmptyDataCount := s1.result.nonEmptyDataCount + 1 }
    if checkDataFileContent f then
      { s1 with result := { r2 with validDataCount := r2.validDataCount + 1 } }
    else
      { s1 with result := { r2 with
          invalidFiles := r2.invalidFiles ++ [f.name],
          flags := r2.flags ||| FLAG_DATA_INVALID } }
  else
    { s1 with result := { s1.result with
        emptyFiles := s1.result.emptyFiles ++ [f.name],
        flags := s1.result.flags ||| FLAG_DATA_EMPTY } }

/-- Record a file in `unexpectedFiles` and raise `FLAG_UNEXPECTED_FILES`. -/
def logUnexpected (s : LogScan) (n : Name) : LogScan :=
  { s with result := { s.result with
      unexpectedFiles := s.result.unexpectedFiles ++ [n],
      flags := s.result.flags ||| FLAG_UNEXPECTED_FILES } }

/-- One iteration of the `CheckLogFiles` file-processing loop
(src/Exorcism.c lines 299–398). -/
def logStep (run : Name) (s : LogScan) (f : FSFile) : LogScan :=
  if f.isDirectory || f.name = dotName || f.name = dotdotName then s
  else if f.name = logName run then s
  else if beginsWith f.name run && endsWith f.name dataSuffix then
    let r := { s.result with dataFileCount := s.result.dataFileCount + 1 }
    if f.name.length = 15 + 1 + 6 + 1 + 4 + 9 then
      processData s r { fileName := f.name, dateTimePattern := subStr f.name 16 11 } f
    else if f.name = run ++ dataSuffix then
      processData s r { fileName := f.name, isSpecialCase := true } f
    else
      logUnexpected { s with result := r } f.name
  else if beginsWith f.name testerPre && containsSub f.name arrMark then
    match strIndex f.name arrMark with
    | some arrPos =>
      if f.name.length ≥ arrPos + 5 + 11 then
        { s with testerFiles := s.testerFiles ++
            [{ fileName := f.name, dateTimePattern := subStr f.name (arrPos + 5) 11 }] }
      else
        logUnexpected s f.name
    | none => logUnexpected s f.name
  else
    logUnexpected s f.name

/-- The std::sort comparator on tester files: ascending by extracted
timestamp pattern (src/Exorcism.c lines 411–413), taken as a reflexive
total order so that the stable `insertionSort` models the sort. -/
def testerLe (a b : FileInfo) : Prop := a.dateTimePattern ≤ b.dateTimePattern

instance : DecidableRel testerLe := fun a b =>
  inferInstanceAs (Decidable (a.dateTimePattern ≤ b.dateTimePattern))

instance : IsTotal FileInfo testerLe :=
  ⟨fun a b => le_total a.dateTimePattern b.dateTimePattern⟩

instance : IsTrans FileInfo testerLe :=
  ⟨fun _ _ _ h1 h2 => le_trans h1 h2⟩

/-- Search the tester list for the first index that is still unmatched and
satisfies `pred` (the inner `for (size_t i ...)` loops of the matching
section, src/Exorcism.c lines 425–447). -/
def findIdxAux (pred : FileInfo → Bool) : List FileInfo → List Bool → Option Nat
  | [], _ => none
  | _, [] => none
  | t :: ts, m :: ms =>
    if !m && pred t then some 0
    else (findIdxAux pred ts ms).map (· + 1)

/-- The data–tester matching loop (src/Exorcism.c lines 419–460): walk the
data files in discovery order; a special-case (untimestamped) data file
takes the first unmatched tester of the sorted list, a timestamped one the
first unmatched tester with the identical timestamp string.  Returns the
per-data-file matches and the final matched-tester mask. -/
def matchLoop (ts : List FileInfo) :
    List FileInfo → List Bool → List (FileInfo × Option Nat) × List Bool
  | [], m => ([], m)
  | d :: ds, m =>
    let oi := if d.isSpecialCase then findIdxAux (fun _ => true) ts m
              else findIdxAux (fun t => t.dateTimePattern = d.dateTimePattern) ts m
    let m2 := match oi with
              | some i => m.set i true
              | none => m
    let rest := matchLoop ts ds m2
    ((d, oi) :: rest.1, rest.2)

/-- The observable outcome of `CheckLogFiles`: the returned
`ValidationResult` plus the matching information the function computes
(and prints) on the way. -/
structure LogOutcome where
  result : ValidationResult
  dataFiles : List FileInfo := []
  sortedTesters : List FileInfo := []
  pairs : List (FileInfo × Option Nat) := []
  deriving Repr, DecidableEq

/-- `CheckLogFiles` (src/Exorcism.c lines 250–527) on the modelled run
directory, keeping the matching information alongside the returned
result. -/
def CheckLogFilesFull (d : RunDir) : LogOutcome :=
  if !d.dirExists then { result := { flags := FLAG_DIR_MISSING } }
  else
    let r0 : ValidationResult :=
      if d.logPresent then
        if d.logOpenable then { logExists := true }
        else { logExists := true, openErrorFiles := [logName d.run], flags := FLAG_FILE_OPEN }
      else { flags := FLAG_LOG_MISSING }
    match d.listing with
    | none => { result := { r0 with flags := r0.flags ||| FLAG_FILE_OPEN } }
    | some files =>
      let s := files.foldl (logStep d.run) { result := r0 }
      let sorted := List.insertionSort testerLe s.testerFiles
      let mr := matchLoop sorted s.dataFiles (List.replicate sorted.length false)
      let fl1 := if mr.1.any (fun p => p.2.isNone) then
                   s.result.flags ||| FLAG_NO_FEB_FILE
                 else s.result.flags
      let fl2 := if s.dataFiles.length > 0 && sorted.length = 0 then
                   fl1 ||| FLAG_NO_FEB_FILE
                 else fl1
      { result := { s.result with flags := fl2 },
        dataFiles := s.dataFiles, sortedTesters := sorted, pairs := mr.1 }

/-- The `ValidationResult` returned by `CheckLogFiles`. -/
def CheckLogFiles (d : RunDir) : ValidationResult := (CheckLogFilesFull d).result

/-! ### `CheckTrimFiles` (src/Exorcism.c lines 549–816) -/

/-- The HW-index extraction performed on trim file names
(src/Exorcism.c lines 597–626): locate `_HW_`, locate `_SET_` after it,
take the characters in between, and require them to be a non-empty digit
string; `none` collects the four early-exit failure cases of the source
(`hwPos == -1`, `setPos == -1`, `setPos <= hwPos+4`, non-numeric). -/
def trimIndexOf (fileName : Name) : Option Nat :=
  match strIndex fileName hwMark with
  | none => none
  | some hwPos =>
    match strIndexFrom fileName setMark (hwPos + 4) with
    | none => none
    | some setPos =>
      if setPos ≤ hwPos + 4 then none
      else
        let indexStr := subStr fileName (hwPos + 4) (setPos - (hwPos + 4))
        if indexStr.all Char.isDigit then some (parseDigits indexStr) else none

/-- Scanning state of the `CheckTrimFiles` loop: the result plus the two
`std::set<int>` index collections (inserted only when fresh, so the list
length is the set size). -/
structure TrimScan where
  result : ValidationResult := {}
  elecIdx : List Nat := []
  holeIdx : List Nat := []
  deriving Repr, DecidableEq

/-- Record a trim file with an invalid name in `invalidFiles` and raise
`FLAG_DATA_INVALID`. -/
def trimInvalid (s : TrimScan) (n : Name) : TrimScan :=
  { s with result := { s.result with
      invalidFiles := s.result.invalidFiles ++ [n],
      flags := s.result.flags ||| FLAG_DATA_INVALID } }

/-- Accessibility and emptiness checks on an accepted trim file
(src/Exorcism.c lines 647–660): an open failure raises
`FLAG_FILE_OPEN_TRIM`; an empty file is only recorded, no flag. -/
def trimAccess (s : TrimScan) (f : FSFile) : TrimScan :=
  if !f.openable then
    { s with result := { s.result with
        openErrorFiles := s.result.openErrorFiles ++ [f.name],
        flags := s.result.flags ||| FLAG_FILE_OPEN_TRIM } }
  else if f.size = 0 then
    { s with result := { s.result with emptyFiles := s.result.emptyFiles ++ [f.name] } }
  else s

/-- One iteration of the `CheckTrimFiles` file-processing loop
(src/Exorcism.c lines 585–738). -/
def trimStep (s : TrimScan) (f : FSFile) : TrimScan :=
  if f.isDirectory || f.name = dotName || f.name = dotdotName then s
  else if endsWith f.name electTxtSuffix then
    match trimIndexOf f.name with
    | none => trimInvalid s f.name
    | some hwIndex =>
      if hwIndex > 7 then trimInvalid s f.name
      else if hwIndex ∈ s.elecIdx then trimInvalid s f.name
      else
        trimAccess { s with
          elecIdx := s.elecIdx ++ [hwIndex],
          result := { s.result with electronCount := s.result.electronCount + 1 } } f
  else if endsWith f.name holesTxtSuffix then
    match trimIndexOf f.name with
    | none => trimInvalid s f.name
    | some hwIndex =>
      if hwIndex > 7 then trimInvalid s f.name
      else if hwIndex ∈ s.holeIdx then trimInvalid s f.name
      else
        trimAccess { s with
          holeIdx := s.holeIdx ++ [hwIndex],
          result := { s.result with holeCount := s.result.holeCount + 1 } } f
  else
    { s with result := { s.result with
        unexpectedFiles := s.result.unexpectedFiles ++ [f.name],
        flags := s.result.flags ||| FLAG_UNEXPECTED_FILES_TRIM } }

/-- `CheckTrimFiles` (src/Exorcism.c lines 549–816). -/
def CheckTrimFiles (d : RunDir) : ValidationResult :=
  if !d.trimExists then { flags := FLAG_TRIM_FOLDER_MISSING }
  else
    match d.trimListing with
    | none => { flags := FLAG_DIR_ACCESS_TRIM }
    | some files =>
      let s := files.foldl trimStep {}
      let f1 := if s.result.electronCount ≠ 8 then
                  s.result.flags ||| FLAG_ELECTRON_COUNT_TRIM
                else if s.elecIdx.length ≠ 8 then
                  s.result.flags ||| FLAG_ELECTRON_COUNT_TRIM
                else s.result.flags
      let f2 := if s.result.holeCount ≠ 8 then f1 ||| FLAG_HOLE_COUNT_TRIM
                else if s.holeIdx.length ≠ 8 then f1 ||| FLAG_HOLE_COUNT_TRIM
                else f1
      { s.result with flags := f2 }

/-! ### `CheckConnFiles` (src/Exorcism.c lines 1154–1307) -/

/-- Accessibility and emptiness checks on a connection file. -/
def connAccess (s : ValidationResult) (f : FSFile) : ValidationResult :=
  if !f.openable then
    { s with openErrorFiles := s.openErrorFiles ++ [f.name],
             flags := s.flags ||| FLAG_FILE_OPEN_CONN }
  else if f.size = 0 then
    { s with emptyFiles := s.emptyFiles ++ [f.name] }
  else s

/-- One iteration of the `CheckConnFiles` file-processing loop
(src/Exorcism.c lines 1183–1245). -/
def connStep (s : ValidationResult) (f : FSFile) : ValidationResult :=
  if f.isDirectory || f.name = dotName || f.name = dotdotName then s
  else if endsWith f.name electTxtSuffix then
    connAccess { s with electronCount := s.electronCount + 1 } f
  else if endsWith f.name holesTxtSuffix then
    connAccess { s with holeCount := s.holeCount + 1 } f
  else
    { s with unexpectedFiles := s.unexpectedFiles ++ [f.name],
             flags := s.flags ||| FLAG_UNEXPECTED_FILES_CONN }

/-- `CheckConnFiles` (src/Exorcism.c lines 1154–1307). -/
def CheckConnFiles (d : RunDir) : ValidationResult :=
  if !d.connExists then { flags := FLAG_CONN_FOLDER_MISSING }
  else
    match d.connListing with
    | none => { flags := FLAG_DIR_ACCESS }
    | some files =>
      let s := files.foldl connStep {}
      let f1 := if s.electronCount ≠ 8 then s.flags ||| FLAG_ELECTRON_COUNT else s.flags
      let f2 := if s.holeCount ≠ 8 then f1 ||| FLAG_HOLE_COUNT else f1
      { s with flags := f2 }

/-! ### `CheckPscanFiles` (src/Exorcism.c lines 839–1134) -/

def moduleRootName (run : Name) : Name := modulePre ++ run ++ dotRoot

def moduleTxtName (run : Name) : Name := modulePre ++ run ++ dotTxt

def modulePdfName (run : Name) : Name := modulePre ++ run ++ dotPdf

/-- The acceptable auxiliary file names of the pscan directory
(src/Exorcism.c lines 920–924). -/
def acceptableAuxFiles : List Name :=
  [("module_test_SETUP.root").toList,
   ("module_test_SETUP.txt").toList,
   ("module_test_SETUP.pdf").toList]

/-- The module-level file checks run before the directory listing
(src/Exorcism.c lines 861–907). -/
def pscanModuleChecks (run : Name) (m : PscanModuleInfo) : ValidationResult :=
  let r0 : ValidationResult := {}
  let r1 := if !m.rootPresent then
              { r0 with moduleErrorFiles := r0.moduleErrorFiles ++ [moduleRootName run],
                        flags := r0.flags ||| FLAG_MODULE_ROOT }
            else if !m.rootOpenable then
              { r0 with moduleErrorFiles := r0.moduleErrorFiles ++ [moduleRootName run],
                        flags := r0.flags ||| FLAG_MODULE_ROOT }
            else r0
  let r2 := if !m.txtPresent then
              { r1 with moduleErrorFiles := r1.moduleErrorFiles ++ [moduleTxtName run],
                        flags := r1.flags ||| FLAG_MODULE_TXT }
            else if !m.txtOpenable then
              { r1 with moduleErrorFiles := r1.moduleErrorFiles ++ [moduleTxtName run],
                        flags := r1.flags ||| FLAG_MODULE_TXT }
            else if m.txtSize = 0 then
              { r1 with emptyFiles := r1.emptyFiles ++ [moduleTxtName run] }
            else r1
  if !m.pdfPresent then
    { r2 with moduleErrorFiles := r2.moduleErrorFiles ++ [modulePdfName run],
              flags := r2.flags ||| FLAG_MODULE_PDF }
  else r2

/-- Accessibility and emptiness checks on a pscan text file. -/
def pscanTxtAccess (s : ValidationResult) (f : FSFile) : ValidationResult :=
  if !f.openable then
    { s with openErrorFiles := s.openErrorFiles ++ [f.name],
             flags := s.flags ||| FLAG_FILE_OPEN_PSCAN }
  else if f.size = 0 then
    { s with emptyFiles := s.emptyFiles ++ [f.name] }
  else s

/-- `TFile::Open` validation on a pscan ROOT file. -/
def pscanRootAccess (s : ValidationResult) (f : FSFile) : ValidationResult :=
  if !f.rootOpenable then
    { s with openErrorFiles := s.openErrorFiles ++ [f.name],
             flags := s.flags ||| FLAG_FILE_OPEN_PSCAN }
  else s

/-- The expected-module-or-auxiliary test of the final branch of the pscan
loop (src/Exorcism.c lines 1018–1033). -/
def pscanModuleOrAux (run : Name) (n : Name) : Bool :=
  (beginsWith n (modulePre ++ run) &&
    (endsWith n dotRoot || endsWith n dotTxt || endsWith n dotPdf)) ||
  acceptableAuxFiles.contains n

/-- One iteration of the `CheckPscanFiles` file-processing loop
(src/Exorcism.c lines 926–1043). -/
def pscanStep (run : Name) (s : ValidationResult) (f : FSFile) : ValidationResult :=
  if f.isDirectory || f.name = dotName || f.name = dotdotName then s
  else if endsWith f.name electTxtSuffix then
    pscanTxtAccess { s with electronTxtCount := s.electronTxtCount + 1 } f
  else if endsWith f.name holesTxtSuffix then
    pscanTxtAccess { s with holeTxtCount := s.holeTxtCount + 1 } f
  else if endsWith f.name electRootSuffix then
    pscanRootAccess { s with electronRootCount := s.electronRootCount + 1 } f
  else if endsWith f.name holesRootSuffix then
    pscanRootAccess { s with holeRootCount := s.holeRootCount + 1 } f
  else if pscanModuleOrAux run f.name then s
  else
    { s with unexpectedFiles := s.unexpectedFiles ++ [f.name],
             flags := s.flags ||| FLAG_UNEXPECTED_FILES_PSCAN }

/-- `CheckPscanFiles` (src/Exorcism.c lines 839–1134). -/
def CheckPscanFiles (d : RunDir) : ValidationResult :=
  if !d.pscanExists then { flags := FLAG_PSCAN_FOLDER_MISSING }
  else
    let r0 := pscanModuleChecks d.run d.pscanModule
    match d.pscanListing with
    | none => { r0 with flags := r0.flags ||| FLAG_DIR_ACCESS_PSCAN }
    | some files =>
      let s := files.foldl (pscanStep d.run) r0
      let f1 := if s.electronTxtCount ≠ 8 then s.flags ||| FLAG_ELECTRON_TXT else s.flags
      let f2 := if s.holeTxtCount ≠ 8 then f1 ||| FLAG_HOLE_TXT else f1
      let f3 := if s.electronRootCount ≠ 8 then f2 ||| FLAG_ELECTRON_ROOT else f2
      let f4 := if s.holeRootCount ≠ 8 then f3 ||| FLAG_HOLE_ROOT else f3
      { s with flags := f4 }

/-! ### Verdict classification (`GenerateReportPage`, src/Exorcism.c lines 1350–1366) -/

/-- The three run verdicts (`STATUS_PASSED`, `STATUS_PASSED_WITH_ISSUES`,
`STATUS_FAILED`). -/
inductive Status where
  | passed
  | passedWithIssues
  | failed
  deriving Repr, DecidableEq

def logCriticalMask : Nat :=
  FLAG_DIR_MISSING ||| FLAG_LOG_MISSING ||| FLAG_DATA_MISSING |||
  FLAG_NO_FEB_FILE ||| FLAG_FILE_OPEN ||| FLAG_DATA_INVALID

def trimCriticalMask : Nat :=
  FLAG_TRIM_FOLDER_MISSING ||| FLAG_DIR_ACCESS_TRIM ||| FLAG_FILE_OPEN_TRIM |||
  FLAG_ELECTRON_COUNT_TRIM ||| FLAG_HOLE_COUNT_TRIM

def pscanCriticalMask : Nat :=
  FLAG_PSCAN_FOLDER_MISSING ||| FLAG_DIR_ACCESS_PSCAN ||| FLAG_FILE_OPEN_PSCAN |||
  FLAG_ELECTRON_TXT ||| FLAG_HOLE_TXT ||| FLAG_ELECTRON_ROOT ||| FLAG_HOLE_ROOT |||
  FLAG_MODULE_ROOT ||| FLAG_MODULE_TXT ||| FLAG_MODULE_PDF

def connCriticalMask : Nat :=
  FLAG_CONN_FOLDER_MISSING ||| FLAG_DIR_ACCESS ||| FLAG_FILE_OPEN_CONN |||
  FLAG_ELECTRON_COUNT ||| FLAG_HOLE_COUNT

def logCosmeticMask : Nat := FLAG_DATA_EMPTY ||| FLAG_UNEXPECTED_FILES

/-- The overall-status determination of `GenerateReportPage`
(src/Exorcism.c lines 1350–1366). -/
def verdict (lg tr ps cn : ValidationResult) : Status :=
  if lg.flags &&& logCriticalMask ≠ 0 ∨ tr.flags &&& trimCriticalMask ≠ 0 ∨
     ps.flags &&& pscanCriticalMask ≠ 0 ∨ cn.flags &&& connCriticalMask ≠ 0 then
    Status.failed
  else if lg.flags &&& logCosmeticMask ≠ 0 ∨
          ps.flags &&& FLAG_UNEXPECTED_FILES_PSCAN ≠ 0 then
    Status.passedWithIssues
  else
    Status.passed

/-- One validation pass over a run: the four category outcomes together
with the verdict computed from them, as produced by `GenerateReportPage`. -/
structure PassOutcome where
  lg : ValidationResult
  tr : ValidationResult
  ps : ValidationResult
  cn : ValidationResult
  status : Status
  deriving Repr, DecidableEq

/-- The full per-run pipeline of `GenerateReportPage`: run the four
validators and classify. -/
def runPass (d : RunDir) : PassOutcome :=
  let lg := CheckLogFiles d
  let tr := CheckTrimFiles d
  let ps := CheckPscanFiles d
  let cn := CheckConnFiles d
  { lg := lg, tr := tr, ps := ps, cn := cn, status := verdict lg tr ps cn }

/-! ### The standalone scanner (src/CheckLogFiles.c) -/

namespace CLF

/-- The counters of the standalone `CheckLogFiles` scanner
(src/CheckLogFiles.c lines 67–74). -/
structure ScanState where
  dataFileCount : Nat := 0
  nonEmptyDataCount : Nat := 0
  validDataCount : Nat := 0
  foundFebFile : Bool := false
  openErrors : Bool := false
  dataOpenError : Bool := false
  deriving Repr, DecidableEq

/-- One iteration of the standalone scanner's directory loop
(src/CheckLogFiles.c lines 101–146): the data-file test and the FEB-file
test are two independent `if`s. -/
def scanStep (run : Name) (s : ScanState) (f : FSFile) : ScanState :=
  if f.name = dotName || f.name = dotdotName then s
  else if f.isDirectory then s
  else
    let s1 :=
      if beginsWith f.name run && endsWith f.name dataSuffix then
        let sa := { s with dataFileCount := s.dataFileCount + 1 }
        if !f.openable then { sa with openErrors := true, dataOpenError := true }
        else if f.size > 0 then
          let sb := { sa with nonEmptyDataCount := sa.nonEmptyDataCount + 1 }
          if checkDataFileContent f then { sb with validDataCount := sb.validDataCount + 1 }
          else sb
        else sa
      else s
    if beginsWith f.name testerPre then
      let s2 := { s1 with foundFebFile := true }
      if !f.openable then { s2 with openErrors := true } else s2
    else s1

/-- The standalone `CheckLogFiles` (src/CheckLogFiles.c lines 50–216),
returning the final counters together with the returned flag word. -/
def checkLogFilesFull (d : RunDir) : Nat × ScanState :=
  if !d.dirExists then (FLAG_DIR_MISSING, {})
  else
    let fl0 : Nat := if d.logPresent then 0 else FLAG_LOG_MISSING
    let s0 : ScanState := { openErrors := d.logPresent && !d.logOpenable }
    let start :=
      match d.listing with
      | none => (fl0 ||| (FLAG_NO_FEB_FILE ||| FLAG_DATA_MISSING),
                 { s0 with openErrors := true })
      | some files => (fl0, files.foldl (scanStep d.run) s0)
    let s := start.2
    let fl2 := if s.dataFileCount = 0 then start.1 ||| FLAG_DATA_MISSING
               else if s.nonEmptyDataCount = 0 then start.1 ||| FLAG_DATA_EMPTY
               else if s.validDataCount = 0 then start.1 ||| FLAG_DATA_INVALID
               else start.1
    let fl3 := if !s.foundFebFile then fl2 ||| FLAG_NO_FEB_FILE else fl2
    (if s.openErrors then fl3 ||| FLAG_FILE_OPEN else fl3, s)

/-- The flag word returned by the standalone `CheckLogFiles`. -/
def checkLogFiles (d : RunDir) : Nat := (checkLogFilesFull d).1

end CLF

/-! ### `Extra_Omnes` (src/Exorcism.c lines 2244–2541) -/

/-- Paths are built by joining components with '/'. -/
def joinPath (a b : Name) : Name := a ++ '/' :: b

def pscanSubdirName : Name := "pscan_files".toList

def trimSubdirName : Name := "trim_files".toList

def connSubdirName : Name := "conn_check_files".toList

/-- The ordering in which a `std::map<TString,bool>` iterates its keys:
lexicographic on the name. -/
def nameLe (a b : Name) : Prop := a ≤ b

instance : DecidableRel nameLe := fun a b => inferInstanceAs (Decidable (a ≤ b))

instance : IsTotal Name nameLe := ⟨fun a b => le_total a b⟩

instance : IsTrans Name nameLe := ⟨fun _ _ _ h1 h2 => le_trans h1 h2⟩

/-- The tester-file collection of `Extra_Omnes` (src/Exorcism.c lines
2272–2283): every listing entry whose name begins with `tester_febs_` and
contains `_arr_` becomes a key of `testerFileMap`; the map iterates its
distinct keys in lexicographic name order. -/
def eoTesterNames (files : List FSFile) : List Name :=
  (List.insertionSort nameLe
    ((files.filter (fun f => beginsWith f.name testerPre && containsSub f.name arrMark)).map
      FSFile.name)).dedup

/-- Special-case matching of `Extra_Omnes` (src/Exorcism.c lines
2306–2314): the first unmatched tester in map order. -/
def eoFindSpecial : List Name → List Bool → Option (Nat × Name)
  | [], _ => none
  | _, [] => none
  | t :: ts, m :: ms =>
    if !m then some (0, t)
    else (eoFindSpecial ts ms).map (fun p => (p.1 + 1, p.2))

/-- Exact-pattern matching of `Extra_Omnes` (src/Exorcism.c lines
2315–2328): the first unmatched tester in map order whose name yields the
same 11-character pattern after `_arr_`. -/
def eoFindExact (pattern : Name) : List Name → List Bool → Option (Nat × Name)
  | [], _ => none
  | _, [] => none
  | t :: ts, m :: ms =>
    let hit := match strIndex t arrMark with
      | some arrPos => !m && (subStr t (arrPos + 5) 11 == pattern)
      | none => false
    if hit then some (0, t)
    else (eoFindExact pattern ts ms).map (fun p => (p.1 + 1, p.2))

/-- The data–tester pair collection loop of `Extra_Omnes`
(src/Exorcism.c lines 2286–2332). -/
def eoPairLoop (run : Name) (testers : List Name) :
    List FSFile → List Bool → List (Name × Option Name) × List Bool
  | [], m => ([], m)
  | f :: fs, m =>
    if beginsWith f.name run && endsWith f.name dataSuffix then
      if f.name.length = 15 + 1 + 6 + 1 + 4 + 9 then
        let found := eoFindExact (subStr f.name 16 11) testers m
        let m2 := match found with
                  | some p => m.set p.1 true
                  | none => m
        let rest := eoPairLoop run testers fs m2
        ((f.name, found.map Prod.snd) :: rest.1, rest.2)
      else if f.name = run ++ dataSuffix then
        let found := eoFindSpecial testers m
        let m2 := match found with
                  | some p => m.set p.1 true
                  | none => m
        let rest := eoPairLoop run testers fs m2
        ((f.name, found.map Prod.snd) :: rest.1, rest.2)
      else
        eoPairLoop run testers fs m
    else
      eoPairLoop run testers fs m

/-- The `dataTesterPairs` list built by `Extra_Omnes` for one directory. -/
def eoPairs (run : Name) (files : List FSFile) : List (Name × Option Name) :=
  let testers := eoTesterNames files
  (eoPairLoop run testers files (List.replicate testers.length false)).1

/-- Read one operator confirmation from the decision stream; an exhausted
stream answers no. -/
def popDecision : List Bool → Bool × List Bool
  | [] => (false, [])
  | b :: bs => (b, bs)

/-- Deletion path of a file of a run, optionally inside a sub-area. -/
def eoPath (run : Name) (subdir : Option Name) (f : Name) : Name :=
  match subdir with
  | none => joinPath run f
  | some sd => joinPath run (joinPath sd f)

/-- The invalid data–tester pair processing of `Extra_Omnes`
(src/Exorcism.c lines 2334–2383): for each invalid file that is not a
`.log` file and has a collected pair, one confirmation; acceptance deletes
the data file and, when matched, its tester file. -/
def eoProcessInvalid (run : Name) (pairs : List (Name × Option Name)) :
    List Name → List Bool → List Name × List Bool
  | [], ds => ([], ds)
  | inv :: invs, ds =>
    if endsWith inv dotLog then eoProcessInvalid run pairs invs ds
    else
      match pairs.find? (fun p => p.1 == inv) with
      | none => eoProcessInvalid run pairs invs ds
      | some p =>
        let pd := popDecision ds
        let dels := if pd.1 then
            joinPath run p.1 :: (match p.2 with
              | some t => [joinPath run t]
              | none => [])
          else []
        let rest := eoProcessInvalid run pairs invs pd.2
        (dels ++ rest.1, rest.2)

/-- One cleanup category of `Extra_Omnes` (src/Exorcism.c lines
2398–2451): `.log` files are filtered out, and if any file remains the
group is deleted after a single confirmation. -/
def eoCategory (run : Name) (subdir : Option Name) (files0 : List Name)
    (ds : List Bool) : List Name × List Bool :=
  let files := files0.filter (fun f => !(endsWith f dotLog))
  if files.isEmpty then ([], ds)
  else
    let pd := popDecision ds
    (if pd.1 then files.map (eoPath run subdir) else [], pd.2)

/-- `processProtectedFiles` (src/Exorcism.c lines 2456–2508): among the
given files, skip `.log` files, collect those not ending in `_elect.txt`
or `_holes.txt`, and delete them after a single confirmation. -/
def eoProtected (run : Name) (subdir : Name) (files0 : List Name)
    (ds : List Bool) : List Name × List Bool :=
  let invalidFormat := files0.filter (fun f =>
    !(endsWith f dotLog) && !(endsWith f electTxtSuffix || endsWith f holesTxtSuffix))
  if invalidFormat.isEmpty then ([], ds)
  else
    let pd := popDecision ds
    (if pd.1 then invalidFormat.map (fun f => eoPath run (some subdir) f) else [], pd.2)

/-- Stage 1 of the per-directory cleanup: the invalid data–tester pair
processing, entered only when data files were found, over the re-listed
directory (src/Exorcism.c lines 2268–2386). -/
def eoStage1 (d : RunDir) (ds : List Bool) : List Name × List Bool :=
  if (CheckLogFiles d).dataFileCount > 0 then
    match d.listing with
    | some files =>
      eoProcessInvalid d.run (eoPairs d.run files) (CheckLogFiles d).invalidFiles ds
    | none => (([] : List Name), ds)
  else (([] : List Name), ds)

/-- The per-directory body of `Extra_Omnes` (src/Exorcism.c lines
2258–2513): re-run the validators, process invalid data–tester pairs,
then the five grouped categories, then the protected trim/conn areas.
Returns the deleted paths and the remaining decision stream. -/
def extraOmnesDir (d : RunDir) (ds : List Bool) : List Name × List Bool :=
  let lg := CheckLogFiles d
  let tr := CheckTrimFiles d
  let ps := CheckPscanFiles d
  let cn := CheckConnFiles d
  let s1 := eoStage1 d ds
  let c1 := eoCategory d.run none lg.emptyFiles s1.2
  let c2 := eoCategory d.run none lg.unexpectedFiles c1.2
  let c3 := eoCategory d.run (some pscanSubdirName) ps.emptyFiles c2.2
  let c4 := eoCategory d.run (some pscanSubdirName) ps.moduleErrorFiles c3.2
  let c5 := eoCategory d.run (some pscanSubdirName) ps.unexpectedFiles c4.2
  let t1 := eoProtected d.run trimSubdirName tr.unexpectedFiles c5.2
  let t2 := eoProtected d.run connSubdirName cn.unexpectedFiles t1.2
  (s1.1 ++ c1.1 ++ c2.1 ++ c3.1 ++ c4.1 ++ c5.1 ++ t1.1 ++ t2.1, t2.2)

/-- `Extra_Omnes` over the whole run set: the list of deleted paths, the
decision stream being consumed across directories in order. -/
def extraOmnes : List RunDir → List Bool → List Name
  | [], _ => []
  | d :: rest, ds =>
    let r := extraOmnesDir d ds
    r.1 ++ extraOmnes rest r.2

/-- Remove one deleted path from the modelled directory state. -/
def deleteFromListing (run : Name) (subdir : Option Name)
    (l : Option (List FSFile)) (p : Name) : Option (List FSFile) :=
  l.map (fun fs => fs.filter (fun f => !(eoPath run subdir f.name == p)))

/-- Apply one deletion to the modelled directory state. -/
def deleteOne (d : RunDir) (p : Name) : RunDir :=
  { d with
    logPresent := if joinPath d.run (logName d.run) = p then false else d.logPresent,
    listing := deleteFromListing d.run none d.listing p,
    trimListing := deleteFromListing d.run (some trimSubdirName) d.trimListing p,
    pscanListing := deleteFromListing d.run (some pscanSubdirName) d.pscanListing p,
    connListing := deleteFromListing d.run (some connSubdirName) d.connListing p }

/-- Apply a sequence of deletions to the modelled directory state. -/
def applyDeletions (d : RunDir) : List Name → RunDir
  | [] => d
  | p :: ps => applyDeletions (deleteOne d p) ps

/-- A decision stream on which every confirmation prompt is declined. -/
def allFalse (ds : List Bool) : Prop := ∀ b ∈ ds, b = false

instance (ds : List Bool) : Decidable (allFalse ds) :=
  inferInstanceAs (Decidable (∀ b ∈ ds, b = false))

/-- A one-run session used in concrete instantiations: a run holding a
single empty data file. -/
def sampleEmptyDataDir : RunDir :=
  { run := ("R").toList,
    listing := some [{ name := ("R_data.dat").toList, size := 0 }] }

/-- "Some outcome contains a critical flag", read flag by flag as the
verdict rule of the spec lists them — now restricted to the flags the
code's masks actually test. -/
def criticalFlagged (lg tr ps cn : ValidationResult) : Prop :=
  hasFlag lg.flags FLAG_DIR_MISSING ∨ hasFlag lg.flags FLAG_LOG_MISSING ∨
  hasFlag lg.flags FLAG_DATA_MISSING ∨ hasFlag lg.flags FLAG_NO_FEB_FILE ∨
  hasFlag lg.flags FLAG_FILE_OPEN ∨ hasFlag lg.flags FLAG_DATA_INVALID ∨
  hasFlag tr.flags FLAG_TRIM_FOLDER_MISSING ∨ hasFlag tr.flags FLAG_DIR_ACCESS_TRIM ∨
  hasFlag tr.flags FLAG_FILE_OPEN_TRIM ∨ hasFlag tr.flags FLAG_ELECTRON_COUNT_TRIM ∨
  hasFlag tr.flags FLAG_HOLE_COUNT_TRIM ∨
  hasFlag ps.flags FLAG_PSCAN_FOLDER_MISSING ∨ hasFlag ps.flags FLAG_DIR_ACCESS_PSCAN ∨
  hasFlag ps.flags FLAG_FILE_OPEN_PSCAN ∨ hasFlag ps.flags FLAG_ELECTRON_TXT ∨
  hasFlag ps.flags FLAG_HOLE_TXT ∨ hasFlag ps.flags FLAG_ELECTRON_ROOT ∨
  hasFlag ps.flags FLAG_HOLE_ROOT ∨ hasFlag ps.flags FLAG_MODULE_ROOT ∨
  hasFlag ps.flags FLAG_MODULE_TXT ∨ hasFlag ps.flags FLAG_MODULE_PDF ∨
  hasFlag cn.flags FLAG_CONN_FOLDER_MISSING ∨ hasFlag cn.flags FLAG_DIR_ACCESS ∨
  hasFlag cn.flags FLAG_FILE_OPEN_CONN ∨ hasFlag cn.flags FLAG_ELECTRON_COUNT ∨
  hasFlag cn.flags FLAG_HOLE_COUNT

/-- "Some outcome contains a cosmetic flag": the only cosmetic flags the
code consults are the log area's empty-data and unexpected-files flags and
the pscan area's unexpected-files flag. -/
def cosmeticFlagged (lg ps : ValidationResult) : Prop :=
  hasFlag lg.flags FLAG_DATA_EMPTY ∨ hasFlag lg.flags FLAG_UNEXPECTED_FILES ∨
  hasFlag ps.flags FLAG_UNEXPECTED_FILES_PSCAN

/-- 0–9 as characters. -/
def digitChar (i : Nat) : Char := Char.ofNat (48 + i)

/-- A well-formed trim electron file carrying HW index `i`. -/
def sampleTrimElec (i : Nat) : FSFile :=
  { name := ("t_HW_").toList ++ [digitChar i] ++ ("_SET_a_elect.txt").toList, size := 1 }

/-- A well-formed trim hole file carrying HW index `i`. -/
def sampleTrimHole (i : Nat) : FSFile :=
  { name := ("t_HW_").toList ++ [digitChar i] ++ ("_SET_a_holes.txt").toList, size := 1 }

/-- A fully regular trim area: 8 electron and 8 hole files, indices 0–7. -/
def sampleTrimGood : List FSFile :=
  (List.range 8).map sampleTrimElec ++ (List.range 8).map sampleTrimHole

/-- A trim electron file whose embedded HW index 9 is out of range. -/
def sampleTrimBadIdx : FSFile := { name := ("t_HW_9_SET_a_elect.txt").toList, size := 1 }

def samplePscanElecTxt (i : Nat) : FSFile :=
  { name := [digitChar i] ++ ("_elect.txt").toList, size := 1 }

def samplePscanHoleTxt (i : Nat) : FSFile :=
  { name := [digitChar i] ++ ("_holes.txt").toList, size := 1 }

def samplePscanElecRoot (i : Nat) : FSFile :=
  { name := [digitChar i] ++ ("_elect.root").toList, size := 1 }

def samplePscanHoleRoot (i : Nat) : FSFile :=
  { name := [digitChar i] ++ ("_holes.root").toList, size := 1 }

/-- A fully regular pscan area: 8 files of each of the four kinds. -/
def samplePscanGood : List FSFile :=
  (List.range 8).map samplePscanElecTxt ++ (List.range 8).map samplePscanHoleTxt ++
  (List.range 8).map samplePscanElecRoot ++ (List.range 8).map samplePscanHoleRoot

/-- A fully regular conn area: 8 electron and 8 hole files. -/
def sampleConnGood : List FSFile :=
  (List.range 8).map samplePscanElecTxt ++ (List.range 8).map samplePscanHoleTxt

/-- A run that is fully regular except for one out-of-range HW index in
the trim area. -/
def dirInvalidIdxTrim : RunDir :=
  { run := ("R").toList,
    listing := some [],
    trimListing := some (sampleTrimGood ++ [sampleTrimBadIdx]),
    pscanListing := some samplePscanGood,
    connListing := some sampleConnGood }

/-- A trim area with only 7 electron files (indices 0–6) but all 8 hole
files. -/
def sampleTrimSeven : List FSFile :=
  (List.range 7).map sampleTrimElec ++ (List.range 8).map sampleTrimHole

/-- The embedded HW index of an electron-named trim file, when the name
parses. -/
def elecIdxOf (f : FSFile) : Option Nat :=
  if endsWith f.name electTxtSuffix then trimIndexOf f.name else none

/-- The embedded HW index of a hole-named trim file, when the name
parses. -/
def holeIdxOf (f : FSFile) : Option Nat :=
  if endsWith f.name holesTxtSuffix then trimIndexOf f.name else none

/-- A readable, non-empty, well-named trim electron file with an in-range
HW index. -/
def goodElecB (f : FSFile) : Bool :=
  !f.isDirectory && !(decide (f.name = dotName)) && !(decide (f.name = dotdotName)) &&
  endsWith f.name electTxtSuffix &&
  (match trimIndexOf f.name with
   | some k => decide (k ≤ 7)
   | none => false) &&
  f.openable && decide (0 < f.size)

/-- A non-directory entry the scanning loops process (not `.` or `..`). -/
def processedEntryB (f : FSFile) : Bool :=
  !f.isDirectory && !(decide (f.name = dotName)) && !(decide (f.name = dotdotName))

/-- A data-named entry of the standalone scanner: any processed entry
whose name begins with the run name and ends in `_data.dat`. -/
def clfDataNamed (run : Name) (f : FSFile) : Bool :=
  processedEntryB f && beginsWith f.name run && endsWith f.name dataSuffix

/-- A data-named entry the standalone scanner counts as non-empty. -/
def clfDataNonEmpty (run : Name) (f : FSFile) : Bool :=
  clfDataNamed run f && f.openable && decide (0 < f.size)

/-- A data-named entry the standalone scanner counts as valid. -/
def clfDataValid (run : Name) (f : FSFile) : Bool :=
  clfDataNonEmpty run f && checkDataFileContent f

/-- A well-formed data-file entry of the main pipeline's log scanner: a
processed entry, other than the log file, whose name begins with the run
name, ends in `_data.dat`, and has either the 36-character timestamped
form or the bare `<run>_data.dat` form (conditions written in the order
the scanning loop tests them). -/
def wfDataEntryB (run : Name) (f : FSFile) : Bool :=
  if f.isDirectory || f.name = dotName || f.name = dotdotName then false
  else if f.name = logName run then false
  else if beginsWith f.name run && endsWith f.name dataSuffix then
    if f.name.length = 15 + 1 + 6 + 1 + 4 + 9 then true
    else if f.name = run ++ dataSuffix then true
    else false
  else false

/-- The flag contribution of the content checks on one well-formed data
file. -/
def processDataFlags (f : FSFile) : Nat :=
  if !f.openable then FLAG_FILE_OPEN
  else if f.size > 0 then
    if checkDataFileContent f then 0 else FLAG_DATA_INVALID
  else FLAG_DATA_EMPTY

/-- The flag contribution of one listing entry to the main pipeline's
`CheckLogFiles` flag word, branch by branch as the loop raises them. -/
def logEntryFlags (run : Name) (f : FSFile) : Nat :=
  if f.isDirectory || f.name = dotName || f.name = dotdotName then 0
  else if f.name = logName run then 0
  else if beginsWith f.name run && endsWith f.name dataSuffix then
    if f.name.length = 15 + 1 + 6 + 1 + 4 + 9 then processDataFlags f
    else if f.name = run ++ dataSuffix then processDataFlags f
    else FLAG_UNEXPECTED_FILES
  else if beginsWith f.name testerPre && containsSub f.name arrMark then
    match strIndex f.name arrMark with
    | some arrPos => if f.name.length ≥ arrPos + 5 + 11 then 0 else FLAG_UNEXPECTED_FILES
    | none => FLAG_UNEXPECTED_FILES
  else FLAG_UNEXPECTED_FILES

/-- OR together a list of flag words. -/
def orList (l : List Nat) : Nat := l.foldr (fun a b => a ||| b) 0

/-- A data file with valid content for the mixed-validity sample run. -/
def sampleValidData : FSFile :=
  { name := ("RUN_TEST_LADDER_240101_0930_data.dat").toList, size := 3,
    lines := [marker, ("a").toList, ("b").toList] }

/-- A non-empty data file with invalid content for the mixed-validity
sample run. -/
def sampleInvalidData : FSFile :=
  { name := ("RUN_TEST_LADDER_240101_0941_data.dat").toList, size := 1,
    lines := [("junk").toList] }

/-- A run with one valid and one invalid data file. -/
def dirMixedValidity : RunDir :=
  { run := ("RUN_TEST_LADDER").toList,
    listing := some [sampleValidData, sampleInvalidData] }

/-- A short run name (3 characters, not the 15 the timestamped data-file
length check presumes). -/
def sampleShortRun : Name := "RUN".toList

/-- `<run>_<YYMMDD>_<HHMM>_data.dat` for the short run name: well-formed
per the naming convention but not 36 characters long. -/
def sampleMalformedTSData : FSFile :=
  { name := ("RUN_240101_0930_data.dat").toList, size := 1 }

/-- A run whose trim area is fully regular. -/
def sampleTrimGoodDir : RunDir :=
  { run := ("R").toList, trimListing := some sampleTrimGood }

/-- A run whose trim area has only 7 electron files. -/
def sampleTrimSevenDir : RunDir :=
  { run := ("R").toList, trimListing := some sampleTrimSeven }

/-- A readable, non-empty, well-named trim hole file with an in-range HW
index. -/
def goodHoleB (f : FSFile) : Bool :=
  !f.isDirectory && !(decide (f.name = dotName)) && !(decide (f.name = dotdotName)) &&
  endsWith f.name holesTxtSuffix &&
  (match trimIndexOf f.name with
   | some k => decide (k ≤ 7)
   | none => false) &&
  f.openable && decide (0 < f.size)

/-! ### Per-entry categories of the two scanning loops (src/Exorcism.c
lines 299–398 and 926–1043), written branch by branch in the order the
loops test them -/

/-- The expected-log-file entry of the main log loop (skipped by the
second branch). -/
def logNamedB (run : Name) (f : FSFile) : Bool :=
  if f.isDirectory || f.name = dotName || f.name = dotdotName then false
  else if f.name = logName run then true
  else false

/-- The condition under which the log loop increments `dataFileCount`:
any processed entry other than the log file whose name begins with the
run name and ends in `_data.dat`, well-formed or not. -/
def dataNamedB (run : Name) (f : FSFile) : Bool :=
  if f.isDirectory || f.name = dotName || f.name = dotdotName then false
  else if f.name = logName run then false
  else if beginsWith f.name run && endsWith f.name dataSuffix then true
  else false

/-- A data-named entry of neither the 36-character timestamped form nor
the bare `<run>_data.dat` form: counted in `dataFileCount` and then also
recorded as unexpected. -/
def malformedDataB (run : Name) (f : FSFile) : Bool :=
  if f.isDirectory || f.name = dotName || f.name = dotdotName then false
  else if f.name = logName run then false
  else if beginsWith f.name run && endsWith f.name dataSuffix then
    if f.name.length = 15 + 1 + 6 + 1 + 4 + 9 then false
    else if f.name = run ++ dataSuffix then false
    else true
  else false

/-- An entry the log loop accepts into the tester list. -/
def testerAcceptB (run : Name) (f : FSFile) : Bool :=
  if f.isDirectory || f.name = dotName || f.name = dotdotName then false
  else if f.name = logName run then false
  else if beginsWith f.name run && endsWith f.name dataSuffix then false
  else if beginsWith f.name testerPre && containsSub f.name arrMark then
    match strIndex f.name arrMark with
    | some arrPos => if f.name.length ≥ arrPos + 5 + 11 then true else false
    | none => false
  else false

/-- An entry the log loop records in `unexpectedFiles`: a malformed
data-named entry, a malformed tester entry, or any other unrecognized
entry. -/
def logUnexpB (run : Name) (f : FSFile) : Bool :=
  if f.isDirectory || f.name = dotName || f.name = dotdotName then false
  else if f.name = logName run then false
  else if beginsWith f.name run && endsWith f.name dataSuffix then
    if f.name.length = 15 + 1 + 6 + 1 + 4 + 9 then false
    else if f.name = run ++ dataSuffix then false
    else true
  else if beginsWith f.name testerPre && containsSub f.name arrMark then
    match strIndex f.name arrMark with
    | some arrPos => if f.name.length ≥ arrPos + 5 + 11 then false else true
    | none => true
  else true

/-- A pscan entry counted as an electron text file. -/
def pscanTxtEB (f : FSFile) : Bool :=
  if f.isDirectory || f.name = dotName || f.name = dotdotName then false
  else if endsWith f.name electTxtSuffix then true
  else false

/-- A pscan entry counted as a hole text file. -/
def pscanTxtHB (f : FSFile) : Bool :=
  if f.isDirectory || f.name = dotName || f.name = dotdotName then false
  else if endsWith f.name electTxtSuffix then false
  else if endsWith f.name holesTxtSuffix then true
  else false

/-- A pscan entry counted as an electron ROOT file. -/
def pscanRootEB (f : FSFile) : Bool :=
  if f.isDirectory || f.name = dotName || f.name = dotdotName then false
  else if endsWith f.name electTxtSuffix then false
  else if endsWith f.name holesTxtSuffix then false
  else if endsWith f.name electRootSuffix then true
  else false

/-- A pscan entry counted as a hole ROOT file. -/
def pscanRootHB (f : FSFile) : Bool :=
  if f.isDirectory || f.name = dotName || f.name = dotdotName then false
  else if endsWith f.name electTxtSuffix then false
  else if endsWith f.name holesTxtSuffix then false
  else if endsWith f.name electRootSuffix then false
  else if endsWith f.name holesRootSuffix then true
  else false

/-- A pscan entry accepted as a module or auxiliary file (skipped). -/
def pscanAuxB (run : Name) (f : FSFile) : Bool :=
  if f.isDirectory || f.name = dotName || f.name = dotdotName then false
  else if endsWith f.name electTxtSuffix then false
  else if endsWith f.name holesTxtSuffix then false
  else if endsWith f.name electRootSuffix then false
  else if endsWith f.name holesRootSuffix then false
  else if pscanModuleOrAux run f.name then true
  else false

/-- A pscan entry recorded in `unexpectedFiles`. -/
def pscanUnexpB (run : Name) (f : FSFile) : Bool :=
  if f.isDirectory || f.name = dotName || f.name = dotdotName then false
  else if endsWith f.name electTxtSuffix then false
  else if endsWith f.name holesTxtSuffix then false
  else if endsWith f.name electRootSuffix then false
  else if endsWith f.name holesRootSuffix then false
  else if pscanModuleOrAux run f.name then false
  else true

/-- A run whose log area holds a single malformed data-named file. -/
def dirMalformedData : RunDir :=
  { run := sampleShortRun, listing := some [sampleMalformedTSData] }

/-- Default `FileInfo` used when indexing tester lists positionally. -/
def fiDefault : FileInfo := { fileName := [] }

/-- The tester choice one iteration of the matching loop makes for data
file `d` against the sorted tester list `ts` under matched-mask `m`
(src/Exorcism.c lines 423–448): the first unmatched tester for a
special-case data file, the first unmatched tester with the identical
timestamp otherwise. -/
def stepChoice (ts : List FileInfo) (d : FileInfo) (m : List Bool) : Option Nat :=
  if d.isSpecialCase then findIdxAux (fun _ => true) ts m
  else findIdxAux (fun t => t.dateTimePattern = d.dateTimePattern) ts m

/-- The matched-mask update of one matching-loop iteration. -/
def stepMask (m : List Bool) : Option Nat → List Bool
  | some i => m.set i true
  | none => m

/-- A tester file whose timestamp (240101_0935) differs from every data
file's. -/
def sampleTester0935 : FSFile :=
  { name := ("tester_febs_A_arr_240101_0935_v.txt").toList, size := 1 }

/-- A run with one timestamped data file (240101_0930) and one tester
file five minutes later (240101_0935): the timestamps are close but not
identical. -/
def dirNearestTime : RunDir :=
  { run := ("RUN_TEST_LADDER").toList,
    listing := some [sampleValidData, sampleTester0935] }

/-- A tester file whose name sorts first alphabetically but whose
timestamp (240101_0905) is the later one. -/
def sampleTesterA0905 : FSFile :=
  { name := ("tester_febs_A_arr_240101_0905_v.txt").toList, size := 1 }

/-- A tester file whose name sorts second alphabetically but whose
timestamp (240101_0900) is the earlier one. -/
def sampleTesterB0900 : FSFile :=
  { name := ("tester_febs_B_arr_240101_0900_v.txt").toList, size := 1 }

/-- A bare (special-case) data file with invalid content. -/
def sampleBareInvalidData : FSFile :=
  { name := ("RUN_TEST_LADDER_data.dat").toList, size := 1,
    lines := [("junk").toList] }

/-- A run where the alphabetical tester order of the cleanup pairing and
the chronological tester order of the validation pairing disagree. -/
def dirPairMismatch : RunDir :=
  { run := ("RUN_TEST_LADDER").toList,
    listing := some [sampleBareInvalidData, sampleTesterB0900, sampleTesterA0905] }

/-- A well-formed tester file whose name happens to end in `.log`. -/
def sampleTesterDotLog : FSFile :=
  { name := ("tester_febs_A_arr_240101_0900.log").toList, size := 1 }

/-- A timestamped (240101_0900) data file with invalid content. -/
def sampleInvalidTSData : FSFile :=
  { name := ("RUN_TEST_LADDER_240101_0900_data.dat").toList, size := 1,
    lines := [("junk").toList] }

/-- A run whose invalid data file pairs with a tester named with a `.log`
suffix. -/
def dirLogTester : RunDir :=
  { run := ("RUN_TEST_LADDER").toList,
    listing := some [sampleInvalidTSData, sampleTesterDotLog] }

/-! ## Theorems -/

/-! ### Bitmask algebra -/

theorem lor_eq_zero_iff (m n : Nat) : m ||| n = 0 ↔ m = 0 ∧ n = 0 := by
  constructor
  · intro h
    refine ⟨?_, ?_⟩ <;>
      · apply Nat.eq_of_testBit_eq
        intro i
        have h2 := congrArg (fun x => Nat.testBit x i) h
        simp only [Nat.testBit_lor, Nat.zero_testBit, Bool.or_eq_false_iff] at h2
        simp [h2.1, h2.2]
  · rintro ⟨rfl, rfl⟩
    rfl

theorem land_lor_distrib (a m n : Nat) :
    a &&& (m ||| n) = (a &&& m) ||| (a &&& n) := by
  apply Nat.eq_of_testBit_eq
  intro i
  simp [Nat.testBit_lor, Nat.testBit_land, Bool.and_or_distrib_left]

theorem lor_land_distrib (a b m : Nat) :
    (a ||| b) &&& m = (a &&& m) ||| (b &&& m) := by
  apply Nat.eq_of_testBit_eq
  intro i
  simp [Nat.testBit_lor, Nat.testBit_land, Bool.and_or_distrib_right]

/-- Testing a combined mask is testing each mask separately. -/
theorem hasFlag_mask_or (a m n : Nat) :
    hasFlag a (m ||| n) ↔ hasFlag a m ∨ hasFlag a n := by
  unfold hasFlag
  rw [land_lor_distrib]
  rw [not_iff_comm, lor_eq_zero_iff]
  tauto

/-- An OR-accumulated flag word carries a mask iff one of its parts does. -/
theorem hasFlag_or_left (a b m : Nat) :
    hasFlag (a ||| b) m ↔ hasFlag a m ∨ hasFlag b m := by
  unfold hasFlag
  rw [lor_land_distrib]
  rw [not_iff_comm, lor_eq_zero_iff]
  tauto

theorem hasFlag_zero (m : Nat) : ¬ hasFlag 0 m := by
  simp [hasFlag]


/-! ### C9: data-file content validity -/

theorem validLinesAfter_iff (ls : List Name) : ∀ k, k ≤ 1 →
    (validLinesAfter ls k = true ↔ 2 ≤ k + ls.countP (fun l => !isBlank l)) := by
  induction ls with
  | nil =>
    intro k hk
    simp only [validLinesAfter, List.countP_nil, Bool.false_eq_true, false_iff]
    omega
  | cons l ls ih =>
    intro k hk
    cases hb : isBlank l with
    | true =>
      simp only [validLinesAfter, hb, if_true, List.countP_cons]
      rw [ih k hk]
      simp [hb]
    | false =>
      simp only [validLinesAfter, hb, Bool.false_eq_true, if_false, List.countP_cons, hb,
        Bool.not_false, if_pos rfl]
      by_cases hk2 : k + 1 ≥ 2
      · simp only [hk2, if_true, true_iff]
        omega
      · rw [if_neg hk2, ih (k + 1) (by omega)]
        simp only [if_pos trivial]
        omega

/-- C9 — A data file's content is judged valid iff some line contains the
literal marker string and at least two of the lines following the first
marker line are non-blank, where a line consisting only of spaces and tabs
does not count; if the marker never occurs, or fewer than two qualifying
lines follow its first occurrence, the content is judged invalid. -/
theorem c9_content_validity (lines : List Name) :
    checkDataFileContentLines lines = true ↔
      ∃ pre m post, lines = pre ++ m :: post ∧
        (∀ l ∈ pre, containsSub l marker = false) ∧
        containsSub m marker = true ∧
        2 ≤ post.countP (fun l => !isBlank l) := by
  induction lines with
  | nil =>
    simp only [checkDataFileContentLines, Bool.false_eq_true, false_iff]
    rintro ⟨pre, m, post, h, -⟩
    exact (List.append_ne_nil_of_right_ne_nil pre (List.cons_ne_nil m post)) h.symm
  | cons l ls ih =>
    by_cases hm : containsSub l marker
    · simp only [checkDataFileContentLines, hm, if_true]
      rw [validLinesAfter_iff ls 0 (by omega)]
      constructor
      · intro h
        exact ⟨[], l, ls, rfl, by simp, hm, by simpa using h⟩
      · rintro ⟨pre, m, post, hdec, hpre, hmm, hcount⟩
        cases pre with
        | nil =>
          simp only [List.nil_append, List.cons.injEq] at hdec
          obtain ⟨rfl, rfl⟩ := hdec
          simpa using hcount
        | cons p pre =>
          simp only [List.cons_append, List.cons.injEq] at hdec
          obtain ⟨rfl, -⟩ := hdec
          have := hpre l (List.mem_cons_self l pre)
          rw [hm] at this
          cases this
    · simp only [checkDataFileContentLines, hm, Bool.false_eq_true, if_false]
      rw [ih]
      constructor
      · rintro ⟨pre, m, post, hdec, hpre, hmm, hcount⟩
        refine ⟨l :: pre, m, post, by rw [hdec, List.cons_append], ?_, hmm, hcount⟩
        intro x hx
        rcases List.mem_cons.mp hx with h1 | h2
        · subst h1
          simpa using hm
        · exact hpre x h2
      · rintro ⟨pre, m, post, hdec, hpre, hmm, hcount⟩
        cases pre with
        | nil =>
          simp only [List.nil_append, List.cons.injEq] at hdec
          obtain ⟨rfl, rfl⟩ := hdec
          rw [hmm] at hm
          cases hm rfl
        | cons p pre =>
          simp only [List.cons_append, List.cons.injEq] at hdec
          obtain ⟨rfl, rfl⟩ := hdec
          exact ⟨pre, m, post, rfl, fun x hx => hpre x (List.mem_cons_of_mem l hx), hmm, hcount⟩

/-! ### C8: declining every confirmation deletes nothing -/

theorem popDecision_allFalse (ds : List Bool) (h : allFalse ds) :
    (popDecision ds).1 = false ∧ allFalse (popDecision ds).2 := by
  cases ds with
  | nil => exact ⟨rfl, h⟩
  | cons b bs =>
    exact ⟨h b (List.mem_cons_self b bs), fun x hx => h x (List.mem_cons_of_mem b hx)⟩

theorem eoProcessInvalid_allFalse (run : Name) (pairs : List (Name × Option Name)) :
    ∀ invs ds, allFalse ds →
      (eoProcessInvalid run pairs invs ds).1 = [] ∧
      allFalse (eoProcessInvalid run pairs invs ds).2 := by
  intro invs
  induction invs with
  | nil => exact fun ds h => ⟨rfl, h⟩
  | cons inv invs ih =>
    intro ds h
    unfold eoProcessInvalid
    split
    · exact ih ds h
    · split
      · exact ih ds h
      · obtain ⟨h1, h2⟩ := popDecision_allFalse ds h
        obtain ⟨h3, h4⟩ := ih (popDecision ds).2 h2
        simp only [h1, Bool.false_eq_true, if_false, List.nil_append]
        exact ⟨h3, h4⟩

theorem eoCategory_allFalse (run : Name) (subdir : Option Name) (files0 : List Name)
    (ds : List Bool) (h : allFalse ds) :
    (eoCategory run subdir files0 ds).1 = [] ∧
    allFalse (eoCategory run subdir files0 ds).2 := by
  obtain ⟨h1, h2⟩ := popDecision_allFalse ds h
  unfold eoCategory
  dsimp only
  by_cases hc : (files0.filter (fun f => !(endsWith f dotLog))).isEmpty = true
  · rw [if_pos hc]
    exact ⟨rfl, h⟩
  · rw [if_neg hc]
    simp only [h1, Bool.false_eq_true, if_false]
    exact ⟨by trivial, h2⟩

theorem eoProtected_allFalse (run : Name) (subdir : Name) (files0 : List Name)
    (ds : List Bool) (h : allFalse ds) :
    (eoProtected run subdir files0 ds).1 = [] ∧
    allFalse (eoProtected run subdir files0 ds).2 := by
  obtain ⟨h1, h2⟩ := popDecision_allFalse ds h
  unfold eoProtected
  dsimp only
  by_cases hc : (files0.filter (fun f =>
      !(endsWith f dotLog) && !(endsWith f electTxtSuffix || endsWith f holesTxtSuffix))).isEmpty = true
  · rw [if_pos hc]
    exact ⟨rfl, h⟩
  · rw [if_neg hc]
    simp only [h1, Bool.false_eq_true, if_false]
    exact ⟨by trivial, h2⟩

theorem eoStage1_allFalse (d : RunDir) (ds : List Bool) (h : allFalse ds) :
    (eoStage1 d ds).1 = [] ∧ allFalse (eoStage1 d ds).2 := by
  unfold eoStage1
  split
  · split
    · exact eoProcessInvalid_allFalse _ _ _ _ h
    · exact ⟨rfl, h⟩
  · exact ⟨rfl, h⟩

theorem extraOmnesDir_allFalse (d : RunDir) (ds : List Bool) (h : allFalse ds) :
    (extraOmnesDir d ds).1 = [] ∧ allFalse (extraOmnesDir d ds).2 := by
  unfold extraOmnesDir
  dsimp only
  obtain ⟨e1, f1⟩ := eoStage1_allFalse d ds h
  obtain ⟨e2, f2⟩ := eoCategory_allFalse d.run none (CheckLogFiles d).emptyFiles _ f1
  obtain ⟨e3, f3⟩ := eoCategory_allFalse d.run none (CheckLogFiles d).unexpectedFiles _ f2
  obtain ⟨e4, f4⟩ := eoCategory_allFalse d.run (some pscanSubdirName) (CheckPscanFiles d).emptyFiles _ f3
  obtain ⟨e5, f5⟩ := eoCategory_allFalse d.run (some pscanSubdirName) (CheckPscanFiles d).moduleErrorFiles _ f4
  obtain ⟨e6, f6⟩ := eoCategory_allFalse d.run (some pscanSubdirName) (CheckPscanFiles d).unexpectedFiles _ f5
  obtain ⟨e7, f7⟩ := eoProtected_allFalse d.run trimSubdirName (CheckTrimFiles d).unexpectedFiles _ f6
  obtain ⟨e8, f8⟩ := eoProtected_allFalse d.run connSubdirName (CheckConnFiles d).unexpectedFiles _ f7
  refine ⟨?_, f8⟩
  simp only [e1, e2, e3, e4, e5, e6, e7, e8, List.append_nil, List.nil_append]

theorem extraOmnes_allFalse : ∀ (dirs : List RunDir) (ds : List Bool), allFalse ds →
    extraOmnes dirs ds = [] := by
  intro dirs
  induction dirs with
  | nil => intro ds _; rfl
  | cons d rest ih =>
    intro ds h
    show (extraOmnesDir d ds).1 ++ extraOmnes rest (extraOmnesDir d ds).2 = []
    obtain ⟨e, f⟩ := extraOmnesDir_allFalse d ds h
    rw [e, ih _ f]
    rfl

/-- C8 — If the operator declines every deletion confirmation during
cleanup, no file is deleted, and the post-cleanup validation pass produces
outcomes identical to the pre-cleanup pass's outcomes for every run. -/
theorem c8_decline_all_safe (dirs : List RunDir) (ds : List Bool) (h : allFalse ds) :
    extraOmnes dirs ds = [] ∧
    dirs.map (fun d => runPass (applyDeletions d (extraOmnes dirs ds))) = dirs.map runPass := by
  have he := extraOmnes_allFalse dirs ds h
  refine ⟨he, ?_⟩
  rw [he]
  simp only [applyDeletions]

/-- Witness for C8 at a concrete session: one run directory holding an
empty data file (so the cleanup has something to offer) and an operator
declining the prompt. -/
theorem c8_decline_all_safe_witness :
    allFalse [false] ∧
    (extraOmnes [sampleEmptyDataDir] [false] = [] ∧
      [sampleEmptyDataDir].map
          (fun d => runPass (applyDeletions d (extraOmnes [sampleEmptyDataDir] [false]))) =
        [sampleEmptyDataDir].map runPass) :=
  ⟨by decide, c8_decline_all_safe [sampleEmptyDataDir] [false] (by decide)⟩

/-! ### C1: the verdict rule -/

theorem mask_or_ne_zero (a m n : Nat) :
    a &&& (m ||| n) ≠ 0 ↔ a &&& m ≠ 0 ∨ a &&& n ≠ 0 := hasFlag_mask_or a m n

theorem critical_cond_iff (lg tr ps cn : ValidationResult) :
    (lg.flags &&& logCriticalMask ≠ 0 ∨ tr.flags &&& trimCriticalMask ≠ 0 ∨
     ps.flags &&& pscanCriticalMask ≠ 0 ∨ cn.flags &&& connCriticalMask ≠ 0) ↔
    criticalFlagged lg tr ps cn := by
  unfold criticalFlagged hasFlag logCriticalMask trimCriticalMask pscanCriticalMask
    connCriticalMask
  simp only [mask_or_ne_zero]
  tauto

theorem cosmetic_cond_iff (lg ps : ValidationResult) :
    (lg.flags &&& logCosmeticMask ≠ 0 ∨ ps.flags &&& FLAG_UNEXPECTED_FILES_PSCAN ≠ 0) ↔
    cosmeticFlagged lg ps := by
  unfold cosmeticFlagged hasFlag logCosmeticMask
  simp only [mask_or_ne_zero]
  tauto

/-- C1 (amended) — The verdict is `Failed` iff some outcome carries one of
the flags the code's per-category critical masks test (folder or subfolder
missing, directory unreadable, open error, wrong count, invalid log-data
content, no matching tester, module-file error); it is
`PassedWithIssues` iff no such flag is set and the log area carries the
empty-data or unexpected-files flag or the pscan area the unexpected-files
flag; otherwise it is `Passed`.  The trim/conn areas' invalid-index flag
and unexpected-files flags are ignored by the verdict. -/
theorem c1_verdict_rule (lg tr ps cn : ValidationResult) :
    (verdict lg tr ps cn = Status.failed ↔ criticalFlagged lg tr ps cn) ∧
    (verdict lg tr ps cn = Status.passedWithIssues ↔
      ¬ criticalFlagged lg tr ps cn ∧ cosmeticFlagged lg ps) ∧
    (verdict lg tr ps cn = Status.passed ↔
      ¬ criticalFlagged lg tr ps cn ∧ ¬ cosmeticFlagged lg ps) := by
  unfold verdict
  split_ifs with h1 h2
  · rw [critical_cond_iff] at h1
    refine ⟨by simp [h1], ?_, ?_⟩ <;> simp [h1]
  · rw [critical_cond_iff] at h1
    rw [cosmetic_cond_iff] at h2
    refine ⟨?_, ?_, ?_⟩ <;> simp [h1, h2]
  · rw [critical_cond_iff] at h1
    rw [cosmetic_cond_iff] at h2
    refine ⟨?_, ?_, ?_⟩ <;> simp [h1, h2]

/-- C1 counterexample — a run whose trim area carries the invalid-index
flag (`FLAG_DATA_INVALID`, raised for the out-of-range HW index 9) yet
whose verdict is `Passed`, contradicting the claim that a duplicate or
invalid index forces `Failed`. -/
theorem c1_verdict_rule_counterexample :
    hasFlag (CheckTrimFiles dirInvalidIdxTrim).flags FLAG_DATA_INVALID ∧
    (runPass dirInvalidIdxTrim).status = Status.passed := by
  constructor
  · decide
  · decide

/-! ### C5: a fully regular trim area has a zero bitmask -/

theorem suffix_eq_of_length_eq {s1 s2 n : Name}
    (h1 : endsWith n s1 = true) (h2 : endsWith n s2 = true)
    (hl : s1.length = s2.length) : s1 = s2 := by
  obtain ⟨u1, hu1⟩ := List.isSuffixOf_iff_suffix.mp h1
  obtain ⟨u2, hu2⟩ := List.isSuffixOf_iff_suffix.mp h2
  have hu : u1 ++ s1 = u2 ++ s2 := hu1.trans hu2.symm
  have hlen : u1.length = u2.length := by
    have := congrArg List.length hu
    simp only [List.length_append] at this
    omega
  exact (List.append_inj hu hlen).2

/-- A name cannot end in both `_elect.txt` and `_holes.txt`. -/
theorem not_elect_and_holes {n : Name} (h1 : endsWith n electTxtSuffix = true)
    (h2 : endsWith n holesTxtSuffix = true) : False := by
  have := suffix_eq_of_length_eq h1 h2 (by decide)
  exact absurd this (by decide)

theorem goodElecB_spec (f : FSFile) (h : goodElecB f = true) :
    f.isDirectory = false ∧ f.name ≠ dotName ∧ f.name ≠ dotdotName ∧
    endsWith f.name electTxtSuffix = true ∧
    (∃ k, trimIndexOf f.name = some k ∧ k ≤ 7) ∧
    f.openable = true ∧ 0 < f.size := by
  unfold goodElecB at h
  simp only [Bool.and_eq_true, Bool.not_eq_true', decide_eq_false_iff_not,
    decide_eq_true_eq] at h
  obtain ⟨⟨⟨⟨⟨⟨h1, h2⟩, h3⟩, h4⟩, h5⟩, h6⟩, h7⟩ := h
  refine ⟨h1, h2, h3, h4, ?_, h6, h7⟩
  cases hk : trimIndexOf f.name with
  | none => rw [hk] at h5; cases h5
  | some k =>
    rw [hk] at h5
    exact ⟨k, rfl, of_decide_eq_true h5⟩

theorem goodHoleB_spec (f : FSFile) (h : goodHoleB f = true) :
    f.isDirectory = false ∧ f.name ≠ dotName ∧ f.name ≠ dotdotName ∧
    endsWith f.name holesTxtSuffix = true ∧
    (∃ k, trimIndexOf f.name = some k ∧ k ≤ 7) ∧
    f.openable = true ∧ 0 < f.size := by
  unfold goodHoleB at h
  simp only [Bool.and_eq_true, Bool.not_eq_true', decide_eq_false_iff_not,
    decide_eq_true_eq] at h
  obtain ⟨⟨⟨⟨⟨⟨h1, h2⟩, h3⟩, h4⟩, h5⟩, h6⟩, h7⟩ := h
  refine ⟨h1, h2, h3, h4, ?_, h6, h7⟩
  cases hk : trimIndexOf f.name with
  | none => rw [hk] at h5; cases h5
  | some k =>
    rw [hk] at h5
    exact ⟨k, rfl, of_decide_eq_true h5⟩

theorem trimStep_goodElec (s : TrimScan) (f : FSFile) (k : Nat)
    (h : goodElecB f = true) (hk : trimIndexOf f.name = some k) (hmem : k ∉ s.elecIdx) :
    trimStep s f =
      { s with
        elecIdx := s.elecIdx ++ [k],
        result := { s.result with electronCount := s.result.electronCount + 1 } } := by
  obtain ⟨h1, h2, h3, h4, ⟨k2, hk2, hle⟩, h6, h7⟩ := goodElecB_spec f h
  rw [hk] at hk2
  injection hk2 with hk2
  subst hk2
  unfold trimStep
  rw [h1]
  simp only [Bool.false_or, decide_eq_true_eq]
  rw [if_neg (by simp [h2, h3])]
  rw [if_pos h4, hk]
  dsimp only
  rw [if_neg (by omega)]
  rw [if_neg hmem]
  unfold trimAccess
  simp only [h6, Bool.not_true, Bool.false_eq_true, if_false]
  rw [if_neg (by omega)]

theorem trimStep_goodHole (s : TrimScan) (f : FSFile) (k : Nat)
    (h : goodHoleB f = true) (hk : trimIndexOf f.name = some k) (hmem : k ∉ s.holeIdx) :
    trimStep s f =
      { s with
        holeIdx := s.holeIdx ++ [k],
        result := { s.result with holeCount := s.result.holeCount + 1 } } := by
  obtain ⟨h1, h2, h3, h4, ⟨k2, hk2, hle⟩, h6, h7⟩ := goodHoleB_spec f h
  rw [hk] at hk2
  injection hk2 with hk2
  subst hk2
  have hne : endsWith f.name electTxtSuffix = false := by
    cases he : endsWith f.name electTxtSuffix with
    | false => rfl
    | true => exact absurd (not_elect_and_holes he h4) (fun x => x)
  unfold trimStep
  rw [h1]
  simp only [Bool.false_or, decide_eq_true_eq]
  rw [if_neg (by simp [h2, h3])]
  rw [hne]
  simp only [Bool.false_eq_true, if_false]
  rw [if_pos h4, hk]
  dsimp only
  rw [if_neg (by omega)]
  rw [if_neg hmem]
  unfold trimAccess
  simp only [h6, Bool.not_true, Bool.false_eq_true, if_false]
  rw [if_neg (by omega)]

theorem elecIdxOf_goodElec (f : FSFile) (k : Nat) (h : goodElecB f = true)
    (hk : trimIndexOf f.name = some k) : elecIdxOf f = some k := by
  obtain ⟨-, -, -, h4, -, -, -⟩ := goodElecB_spec f h
  unfold elecIdxOf
  rw [if_pos h4, hk]

theorem holeIdxOf_goodElec (f : FSFile) (h : goodElecB f = true) :
    holeIdxOf f = none := by
  obtain ⟨-, -, -, h4, -, -, -⟩ := goodElecB_spec f h
  unfold holeIdxOf
  rw [if_neg]
  intro hcon
  exact not_elect_and_holes h4 hcon

theorem holeIdxOf_goodHole (f : FSFile) (k : Nat) (h : goodHoleB f = true)
    (hk : trimIndexOf f.name = some k) : holeIdxOf f = some k := by
  obtain ⟨-, -, -, h4, -, -, -⟩ := goodHoleB_spec f h
  unfold holeIdxOf
  rw [if_pos h4, hk]

theorem elecIdxOf_goodHole (f : FSFile) (h : goodHoleB f = true) :
    elecIdxOf f = none := by
  obtain ⟨-, -, -, h4, -, -, -⟩ := goodHoleB_spec f h
  unfold elecIdxOf
  rw [if_neg]
  intro hcon
  exact not_elect_and_holes hcon h4

theorem filterMap_cons_some_eq {a : Type} {b : Type} (f : a → Option b)
    (x : a) (l : List a) (y : b) (h : f x = some y) :
    List.filterMap f (x :: l) = y :: List.filterMap f l := by
  rw [List.filterMap_cons_some]
  exact h

theorem filterMap_cons_none_eq {a : Type} {b : Type} (f : a → Option b)
    (x : a) (l : List a) (h : f x = none) :
    List.filterMap f (x :: l) = List.filterMap f l := by
  rw [List.filterMap_cons_none]
  exact h

/-- Folding the trim scanning loop over a listing of regular electron/hole
files with fresh pairwise-distinct indices: no flags are raised and the
counters advance by exactly the number of files of each kind. -/
theorem trimFold_good : ∀ (files : List FSFile) (s : TrimScan),
    (∀ f ∈ files, goodElecB f = true ∨ goodHoleB f = true) →
    (s.elecIdx ++ files.filterMap elecIdxOf).Nodup →
    (s.holeIdx ++ files.filterMap holeIdxOf).Nodup →
    (files.foldl trimStep s).result.flags = s.result.flags ∧
    (files.foldl trimStep s).result.electronCount =
      s.result.electronCount + (files.filterMap elecIdxOf).length ∧
    (files.foldl trimStep s).result.holeCount =
      s.result.holeCount + (files.filterMap holeIdxOf).length ∧
    (files.foldl trimStep s).elecIdx = s.elecIdx ++ files.filterMap elecIdxOf ∧
    (files.foldl trimStep s).holeIdx = s.holeIdx ++ files.filterMap holeIdxOf := by
  intro files
  induction files with
  | nil =>
    intro s _ _ _
    simp [List.filterMap_nil, List.foldl_nil]
  | cons f fs ih =>
    intro s hgood hne hnh
    have hgood2 : ∀ g ∈ fs, goodElecB g = true ∨ goodHoleB g = true :=
      fun g hg => hgood g (List.mem_cons_of_mem f hg)
    have hf := hgood f (List.mem_cons_self f fs)
    rcases hf with he | hh
    · obtain ⟨-, -, -, -, ⟨k, hk, -⟩, -, -⟩ := goodElecB_spec f he
      have hidx := elecIdxOf_goodElec f k he hk
      have hidxh := holeIdxOf_goodElec f he
      rw [filterMap_cons_some_eq elecIdxOf f fs k hidx] at hne ⊢
      rw [filterMap_cons_none_eq holeIdxOf f fs hidxh] at hnh ⊢
      have hmem : k ∉ s.elecIdx := by
        intro hcon
        obtain ⟨-, -, hdisj⟩ := List.nodup_append.mp hne
        exact hdisj hcon (List.mem_cons_self k _)
      rw [List.foldl_cons, trimStep_goodElec s f k he hk hmem]
      have hne2 : (({ s with
          elecIdx := s.elecIdx ++ [k],
          result := { s.result with
            electronCount := s.result.electronCount + 1 } } : TrimScan).elecIdx ++
            fs.filterMap elecIdxOf).Nodup := by
        show ((s.elecIdx ++ [k]) ++ fs.filterMap elecIdxOf).Nodup
        rw [List.append_assoc, List.singleton_append]
        exact hne
      obtain ⟨g1, g2, g3, g4, g5⟩ := ih { s with
          elecIdx := s.elecIdx ++ [k],
          result := { s.result with
            electronCount := s.result.electronCount + 1 } } hgood2 hne2 hnh
      refine ⟨g1, ?_, g3, ?_, ?_⟩
      · rw [g2]
        show s.result.electronCount + 1 + (fs.filterMap elecIdxOf).length = _
        simp only [List.length_cons]
        omega
      · rw [g4]
        show (s.elecIdx ++ [k]) ++ fs.filterMap elecIdxOf = _
        simp [List.append_assoc]
      · rw [g5]
    · obtain ⟨-, -, -, -, ⟨k, hk, -⟩, -, -⟩ := goodHoleB_spec f hh
      have hidx := holeIdxOf_goodHole f k hh hk
      have hidxe := elecIdxOf_goodHole f hh
      rw [filterMap_cons_some_eq holeIdxOf f fs k hidx] at hnh ⊢
      rw [filterMap_cons_none_eq elecIdxOf f fs hidxe] at hne ⊢
      have hmem : k ∉ s.holeIdx := by
        intro hcon
        obtain ⟨-, -, hdisj⟩ := List.nodup_append.mp hnh
        exact hdisj hcon (List.mem_cons_self k _)
      rw [List.foldl_cons, trimStep_goodHole s f k hh hk hmem]
      have hnh2 : (({ s with
          holeIdx := s.holeIdx ++ [k],
          result := { s.result with
            holeCount := s.result.holeCount + 1 } } : TrimScan).holeIdx ++
            fs.filterMap holeIdxOf).Nodup := by
        show ((s.holeIdx ++ [k]) ++ fs.filterMap holeIdxOf).Nodup
        rw [List.append_assoc, List.singleton_append]
        exact hnh
      obtain ⟨g1, g2, g3, g4, g5⟩ := ih { s with
          holeIdx := s.holeIdx ++ [k],
          result := { s.result with
            holeCount := s.result.holeCount + 1 } } hgood2 hne hnh2
      refine ⟨g1, g2, ?_, ?_, ?_⟩
      · rw [g3]
        show s.result.holeCount + 1 + (fs.filterMap holeIdxOf).length = _
        simp only [List.length_cons]
        omega
      · rw [g4]
      · rw [g5]
        show (s.holeIdx ++ [k]) ++ fs.filterMap holeIdxOf = _
        simp [List.append_assoc]

/-- Any trim-critical flag forces the run verdict to `Failed`. -/
theorem verdict_failed_of_trim (lg tr ps cn : ValidationResult)
    (h : tr.flags &&& trimCriticalMask ≠ 0) :
    verdict lg tr ps cn = Status.failed := by
  unfold verdict
  rw [if_pos (Or.inr (Or.inl h))]

/-- The flag word `CheckTrimFiles` computes on a listing of regular
electron/hole files, as a function of the two index counts. -/
theorem checkTrim_regular (d : RunDir) (files : List FSFile)
    (hex : d.trimExists = true) (hl : d.trimListing = some files)
    (hgood : ∀ f ∈ files, goodElecB f = true ∨ goodHoleB f = true)
    (hnodE : (files.filterMap elecIdxOf).Nodup)
    (hnodH : (files.filterMap holeIdxOf).Nodup) :
    (CheckTrimFiles d).flags =
      (if (files.filterMap elecIdxOf).length = 8 then
        (if (files.filterMap holeIdxOf).length = 8 then 0
         else (0 : Nat) ||| FLAG_HOLE_COUNT_TRIM)
       else
        (if (files.filterMap holeIdxOf).length = 8 then (0 : Nat) ||| FLAG_ELECTRON_COUNT_TRIM
         else ((0 : Nat) ||| FLAG_ELECTRON_COUNT_TRIM) ||| FLAG_HOLE_COUNT_TRIM)) := by
  obtain ⟨g1, g2, g3, g4, g5⟩ := trimFold_good files {} hgood hnodE hnodH
  unfold CheckTrimFiles
  rw [hex, hl]
  simp only [Bool.not_true, Bool.false_eq_true, if_false]
  have e1 : (files.foldl trimStep {}).result.electronCount =
      (files.filterMap elecIdxOf).length := by rw [g2]; simp
  have e2 : (files.foldl trimStep {}).result.holeCount =
      (files.filterMap holeIdxOf).length := by rw [g3]; simp
  have e3 : (files.foldl trimStep {}).elecIdx.length =
      (files.filterMap elecIdxOf).length := by rw [g4]; rfl
  have e4 : (files.foldl trimStep {}).holeIdx.length =
      (files.filterMap holeIdxOf).length := by rw [g5]; rfl
  have e0 : (files.foldl trimStep {}).result.flags = 0 := by rw [g1]
  rw [e0, e1, e2, e3, e4]
  by_cases hE : (files.filterMap elecIdxOf).length = 8 <;>
    by_cases hH : (files.filterMap holeIdxOf).length = 8 <;>
      simp [hE, hH]

/-- C5 — A run whose trim area holds exactly 8 readable, non-empty,
uniquely-indexed electron files and 8 matching hole files gets a zero trim
bitmask; reducing the electron count to 7 with all else unchanged raises
the wrong-count flag and forces the run verdict to `Failed` whatever the
other areas report. -/
theorem c5_trim_eight_files (d : RunDir) (files : List FSFile)
    (hex : d.trimExists = true) (hl : d.trimListing = some files)
    (hgood : ∀ f ∈ files, goodElecB f = true ∨ goodHoleB f = true)
    (hnodE : (files.filterMap elecIdxOf).Nodup)
    (hnodH : (files.filterMap holeIdxOf).Nodup)
    (hcE : (files.filterMap elecIdxOf).length = 8)
    (hcH : (files.filterMap holeIdxOf).length = 8)
    (d7 : RunDir) (files7 : List FSFile)
    (hex7 : d7.trimExists = true) (hl7 : d7.trimListing = some files7)
    (hgood7 : ∀ f ∈ files7, goodElecB f = true ∨ goodHoleB f = true)
    (hnodE7 : (files7.filterMap elecIdxOf).Nodup)
    (hnodH7 : (files7.filterMap holeIdxOf).Nodup)
    (hcE7 : (files7.filterMap elecIdxOf).length = 7)
    (hcH7 : (files7.filterMap holeIdxOf).length = 8) :
    (CheckTrimFiles d).flags = 0 ∧
    hasFlag (CheckTrimFiles d7).flags FLAG_ELECTRON_COUNT_TRIM ∧
    (∀ lg ps cn, verdict lg (CheckTrimFiles d7) ps cn = Status.failed) := by
  have h8 := checkTrim_regular d files hex hl hgood hnodE hnodH
  have h7 := checkTrim_regular d7 files7 hex7 hl7 hgood7 hnodE7 hnodH7
  rw [hcE, hcH] at h8
  rw [hcE7, hcH7] at h7
  have h8' : (CheckTrimFiles d).flags = 0 := by rw [h8]; decide
  have h7' : (CheckTrimFiles d7).flags = (0 : Nat) ||| FLAG_ELECTRON_COUNT_TRIM := by
    rw [h7]; decide
  refine ⟨h8', ?_, ?_⟩
  · rw [h7']
    decide
  · intro lg ps cn
    apply verdict_failed_of_trim
    rw [h7']
    decide

/-- Witness for C5: the concrete regular trim area and its 7-electron
variant. -/
theorem c5_trim_eight_files_witness :
    (CheckTrimFiles sampleTrimGoodDir).flags = 0 ∧
    hasFlag (CheckTrimFiles sampleTrimSevenDir).flags FLAG_ELECTRON_COUNT_TRIM ∧
    verdict (CheckLogFiles sampleEmptyDataDir) (CheckTrimFiles sampleTrimSevenDir)
      (CheckPscanFiles sampleEmptyDataDir) (CheckConnFiles sampleEmptyDataDir) =
      Status.failed := by
  have h := c5_trim_eight_files sampleTrimGoodDir sampleTrimGood rfl rfl
    (by decide) (by decide) (by decide) (by decide) (by decide)
    sampleTrimSevenDir sampleTrimSeven rfl rfl
    (by decide) (by decide) (by decide) (by decide) (by decide)
  exact ⟨h.1, h.2.1, h.2.2 _ _ _⟩

/-! ### C10: the timestamped data-file form is recognised by total length -/

theorem processData_dataFiles (s : LogScan) (r : ValidationResult) (info : FileInfo)
    (f : FSFile) : (processData s r info f).dataFiles = s.dataFiles ++ [info] := by
  unfold processData
  split_ifs <;> rfl

theorem processData_result_unexpected (s : LogScan) (r : ValidationResult) (info : FileInfo)
    (f : FSFile) :
    (processData s r info f).result.unexpectedFiles = r.unexpectedFiles := by
  unfold processData
  split_ifs <;> rfl

/-- C10 — On a file whose name begins with the run name and ends in
`_data.dat`, the scanning loop treats the name as timestamped exactly when
its total length is 36, taking the timestamp from character positions
16–26; a well-formed `<run>_<YYMMDD>_<HHMM>_data.dat` name under a run
name whose length is not 15 is therefore recorded as unexpected and
excluded from pairing, both in `CheckLogFiles` and in the cleanup's pair
collection. -/
theorem c10_length_criterion (run : Name) (s : LogScan) (g : FSFile)
    (hdir : g.isDirectory = false) (hd1 : g.name ≠ dotName) (hd2 : g.name ≠ dotdotName)
    (hnotlog : g.name ≠ logName run)
    (hdata : beginsWith g.name run = true) (hsuf : endsWith g.name dataSuffix = true) :
    (g.name.length = 36 →
      (logStep run s g).dataFiles = s.dataFiles ++
        [{ fileName := g.name, dateTimePattern := subStr g.name 16 11 }]) ∧
    (g.name.length ≠ 36 → g.name = run ++ dataSuffix →
      (logStep run s g).dataFiles = s.dataFiles ++
        [{ fileName := g.name, isSpecialCase := true }]) ∧
    (g.name.length ≠ 36 → g.name ≠ run ++ dataSuffix →
      (logStep run s g).dataFiles = s.dataFiles ∧
      (logStep run s g).result.unexpectedFiles = s.result.unexpectedFiles ++ [g.name] ∧
      hasFlag (logStep run s g).result.flags FLAG_UNEXPECTED_FILES) ∧
    (∀ ts : Name, ts.length = 11 → g.name = run ++ '_' :: (ts ++ dataSuffix) →
      run.length ≠ 15 →
      ((logStep run s g).dataFiles = s.dataFiles ∧
       (logStep run s g).result.unexpectedFiles = s.result.unexpectedFiles ++ [g.name] ∧
       hasFlag (logStep run s g).result.flags FLAG_UNEXPECTED_FILES) ∧
      (∀ testers m fs, eoPairLoop run testers (g :: fs) m = eoPairLoop run testers fs m)) := by
  have hstep : ∀ x : LogScan → LogScan,
      (logStep run s g) =
        (if g.name.length = 15 + 1 + 6 + 1 + 4 + 9 then
          processData s { s.result with dataFileCount := s.result.dataFileCount + 1 }
            { fileName := g.name, dateTimePattern := subStr g.name 16 11 } g
        else if g.name = run ++ dataSuffix then
          processData s { s.result with dataFileCount := s.result.dataFileCount + 1 }
            { fileName := g.name, isSpecialCase := true } g
        else
          logUnexpected { s with result :=
            { s.result with dataFileCount := s.result.dataFileCount + 1 } } g.name) := by
    intro _
    unfold logStep
    rw [hdir]
    simp only [Bool.false_or]
    rw [if_neg (by simp [hd1, hd2])]
    rw [if_neg hnotlog]
    rw [hdata, hsuf]
    simp only [Bool.and_self, if_true]
  have hstep2 := hstep id
  refine ⟨?_, ?_, ?_, ?_⟩
  · intro h36
    rw [hstep2, if_pos (by omega), processData_dataFiles]
  · intro h36 hbare
    rw [hstep2, if_neg (by omega), if_pos hbare, processData_dataFiles]
  · intro h36 hbare
    rw [hstep2, if_neg (by omega), if_neg hbare]
    refine ⟨rfl, rfl, ?_⟩
    unfold logUnexpected
    show hasFlag (_ ||| FLAG_UNEXPECTED_FILES) FLAG_UNEXPECTED_FILES
    rw [hasFlag_or_left]
    right
    decide
  · intro ts hts hname hrun
    have hlen : g.name.length = run.length + 21 := by
      rw [hname]
      simp only [List.length_append, List.length_cons]
      have : dataSuffix.length = 9 := by decide
      omega
    have h36 : g.name.length ≠ 36 := by omega
    have hbare : g.name ≠ run ++ dataSuffix := by
      intro hcon
      have := congrArg List.length hcon
      rw [hlen] at this
      simp only [List.length_append] at this
      have h9 : dataSuffix.length = 9 := by decide
      omega
    refine ⟨?_, ?_⟩
    · rw [hstep2, if_neg (by omega), if_neg hbare]
      refine ⟨rfl, rfl, ?_⟩
      unfold logUnexpected
      show hasFlag (_ ||| FLAG_UNEXPECTED_FILES) FLAG_UNEXPECTED_FILES
      rw [hasFlag_or_left]
      right
      decide
    · intro testers m fs
      show (if beginsWith g.name run && endsWith g.name dataSuffix then _ else _) = _
      rw [hdata, hsuf]
      simp only [Bool.and_self, if_true]
      rw [if_neg (by omega), if_neg hbare]

/-- Witness for C10: the run name `RUN` (length 3) with the well-formed
timestamped data-file name `RUN_240101_0930_data.dat`. -/
theorem c10_length_criterion_witness :
    (logStep sampleShortRun {} sampleMalformedTSData).dataFiles = ([] : List FileInfo) ∧
    (logStep sampleShortRun {} sampleMalformedTSData).result.unexpectedFiles =
      [sampleMalformedTSData.name] ∧
    hasFlag (logStep sampleShortRun {} sampleMalformedTSData).result.flags
      FLAG_UNEXPECTED_FILES ∧
    eoPairLoop sampleShortRun [] [sampleMalformedTSData] [] = eoPairLoop sampleShortRun [] [] [] := by
  have h := c10_length_criterion sampleShortRun {} sampleMalformedTSData
    (by decide) (by decide) (by decide) (by decide) (by decide) (by decide)
  have h4 := h.2.2.2 (("240101_0930").toList) (by decide) (by decide) (by decide)
  exact ⟨h4.1.1, h4.1.2.1, h4.1.2.2, h4.2 [] [] []⟩

/-! ### C3: empty/invalid aggregation over the data files -/

theorem hasFlag_orList (l : List Nat) (m : Nat) :
    hasFlag (orList l) m ↔ ∃ x ∈ l, hasFlag x m := by
  induction l with
  | nil =>
    simp only [List.not_mem_nil, false_and, exists_false, iff_false]
    exact hasFlag_zero m
  | cons a l ih =>
    show hasFlag (a ||| orList l) m ↔ _
    rw [hasFlag_or_left, ih]
    simp

theorem processData_flags (s : LogScan) (r : ValidationResult) (info : FileInfo)
    (f : FSFile) (hr : r.flags = s.result.flags) :
    (processData s r info f).result.flags = s.result.flags ||| processDataFlags f := by
  unfold processData processDataFlags
  split_ifs <;> simp [hr, Nat.or_zero]

theorem logStep_flags (run : Name) (s : LogScan) (f : FSFile) :
    (logStep run s f).result.flags = s.result.flags ||| logEntryFlags run f := by
  unfold logStep logEntryFlags
  split_ifs with h1 h2 h3 h4 h5 h6
  · exact (Nat.or_zero _).symm
  · exact (Nat.or_zero _).symm
  · exact processData_flags s _ _ f rfl
  · exact processData_flags s _ _ f rfl
  · rfl
  · cases harr : strIndex f.name arrMark with
    | some arrPos =>
      dsimp only
      split_ifs with h7
      · exact (Nat.or_zero _).symm
      · rfl
    | none => rfl
  · rfl

theorem logFold_flags (run : Name) : ∀ (files : List FSFile) (s : LogScan),
    (files.foldl (logStep run) s).result.flags =
      s.result.flags ||| orList (files.map (logEntryFlags run)) := by
  intro files
  induction files with
  | nil =>
    intro s
    exact (Nat.or_zero _).symm
  | cons f fs ih =>
    intro s
    rw [List.foldl_cons, ih, logStep_flags]
    show _ = s.result.flags ||| (logEntryFlags run f ||| orList (fs.map (logEntryFlags run)))
    rw [Nat.lor_assoc]

theorem logEntryFlags_data_iff (run : Name) (f : FSFile) :
    (hasFlag (logEntryFlags run f) FLAG_DATA_EMPTY ↔
      wfDataEntryB run f = true ∧ f.openable = true ∧ f.size = 0) ∧
    (hasFlag (logEntryFlags run f) FLAG_DATA_INVALID ↔
      wfDataEntryB run f = true ∧ f.openable = true ∧ 0 < f.size ∧
        checkDataFileContent f = false) := by
  have d1 : ¬ hasFlag FLAG_FILE_OPEN FLAG_DATA_EMPTY := by decide
  have d2 : ¬ hasFlag FLAG_FILE_OPEN FLAG_DATA_INVALID := by decide
  have d3 : ¬ hasFlag FLAG_UNEXPECTED_FILES FLAG_DATA_EMPTY := by decide
  have d4 : ¬ hasFlag FLAG_UNEXPECTED_FILES FLAG_DATA_INVALID := by decide
  have d5 : hasFlag FLAG_DATA_EMPTY FLAG_DATA_EMPTY := by decide
  have d6 : ¬ hasFlag FLAG_DATA_EMPTY FLAG_DATA_INVALID := by decide
  have d7 : ¬ hasFlag FLAG_DATA_INVALID FLAG_DATA_EMPTY := by decide
  have d8 : hasFlag FLAG_DATA_INVALID FLAG_DATA_INVALID := by decide
  have d0 : ∀ m, ¬ hasFlag 0 m := hasFlag_zero
  unfold logEntryFlags processDataFlags wfDataEntryB
  split_ifs with h1 h2 h3 h4 h5 h6 h7 h8 h9 h10 <;>
    try (constructor <;> simp_all <;> omega)
  all_goals
    cases harr : strIndex f.name arrMark <;> dsimp only <;>
      (try split_ifs) <;> constructor <;> simp_all <;> omega

theorem clfStep_counts (run : Name) (s : CLF.ScanState) (f : FSFile) :
    (CLF.scanStep run s f).dataFileCount =
      s.dataFileCount + (if clfDataNamed run f then 1 else 0) ∧
    (CLF.scanStep run s f).nonEmptyDataCount =
      s.nonEmptyDataCount + (if clfDataNonEmpty run f then 1 else 0) ∧
    (CLF.scanStep run s f).validDataCount =
      s.validDataCount + (if clfDataValid run f then 1 else 0) := by
  unfold CLF.scanStep clfDataValid clfDataNonEmpty clfDataNamed processedEntryB
  split_ifs <;> simp_all <;> omega

theorem clfFold_counts (run : Name) : ∀ (files : List FSFile) (s : CLF.ScanState),
    (files.foldl (CLF.scanStep run) s).dataFileCount =
      s.dataFileCount + files.countP (clfDataNamed run) ∧
    (files.foldl (CLF.scanStep run) s).nonEmptyDataCount =
      s.nonEmptyDataCount + files.countP (clfDataNonEmpty run) ∧
    (files.foldl (CLF.scanStep run) s).validDataCount =
      s.validDataCount + files.countP (clfDataValid run) := by
  intro files
  induction files with
  | nil =>
    intro s
    simp [List.countP_nil]
  | cons f fs ih =>
    intro s
    rw [List.foldl_cons]
    obtain ⟨i1, i2, i3⟩ := ih (CLF.scanStep run s f)
    obtain ⟨s1, s2, s3⟩ := clfStep_counts run s f
    rw [List.countP_cons, List.countP_cons, List.countP_cons]
    refine ⟨?_, ?_, ?_⟩
    · rw [i1, s1]
      split_ifs <;> omega
    · rw [i2, s2]
      split_ifs <;> omega
    · rw [i3, s3]
      split_ifs <;> omega

set_option maxHeartbeats 2000000 in
theorem clf_flags_data_iff (d : RunDir) (files : List FSFile)
    (hdir : d.dirExists = true) (hl : d.listing = some files) :
    (hasFlag (CLF.checkLogFiles d) FLAG_DATA_EMPTY ↔
      0 < files.countP (clfDataNamed d.run) ∧
        files.countP (clfDataNonEmpty d.run) = 0) ∧
    (hasFlag (CLF.checkLogFiles d) FLAG_DATA_INVALID ↔
      0 < files.countP (clfDataNonEmpty d.run) ∧
        files.countP (clfDataValid d.run) = 0) := by
  have hmono1 : files.countP (clfDataNonEmpty d.run) ≤ files.countP (clfDataNamed d.run) := by
    apply List.countP_mono_left
    intro a _ h
    unfold clfDataNonEmpty at h
    simp only [Bool.and_eq_true] at h
    exact h.1.1
  have hmono2 : files.countP (clfDataValid d.run) ≤ files.countP (clfDataNonEmpty d.run) := by
    apply List.countP_mono_left
    intro a _ h
    unfold clfDataValid at h
    simp only [Bool.and_eq_true] at h
    exact h.1
  unfold CLF.checkLogFiles CLF.checkLogFilesFull
  rw [hdir, hl]
  simp only [Bool.not_true, Bool.false_eq_true, if_false]
  obtain ⟨e1, e2, e3⟩ := clfFold_counts d.run files
    { openErrors := d.logPresent && !d.logOpenable }
  have e1' : (files.foldl (CLF.scanStep d.run)
      { openErrors := d.logPresent && !d.logOpenable }).dataFileCount =
      files.countP (clfDataNamed d.run) := by rw [e1]; simp
  have e2' : (files.foldl (CLF.scanStep d.run)
      { openErrors := d.logPresent && !d.logOpenable }).nonEmptyDataCount =
      files.countP (clfDataNonEmpty d.run) := by rw [e2]; simp
  have e3' : (files.foldl (CLF.scanStep d.run)
      { openErrors := d.logPresent && !d.logOpenable }).validDataCount =
      files.countP (clfDataValid d.run) := by rw [e3]; simp
  rw [e1', e2', e3']
  cases hp : d.logPresent <;>
    cases hfeb : (files.foldl (CLF.scanStep d.run)
      { openErrors := d.logPresent && !d.logOpenable }).foundFebFile <;>
    cases hopen : (files.foldl (CLF.scanStep d.run)
      { openErrors := d.logPresent && !d.logOpenable }).openErrors <;>
    by_cases hc1 : files.countP (clfDataNamed d.run) = 0 <;>
    by_cases hc2 : files.countP (clfDataNonEmpty d.run) = 0 <;>
    by_cases hc3 : files.countP (clfDataValid d.run) = 0 <;>
      simp only [hp, hfeb, hopen, hc1, hc2, hc3, if_true, if_false, Bool.not_true,
        Bool.not_false, Bool.false_eq_true, Bool.true_eq_false, ite_true, ite_false] <;>
      constructor <;>
      first
        | decide
        | omega
        | (constructor <;> intro h <;>
            first
              | decide
              | omega
              | exact absurd h (by decide)
              | exact absurd h (by omega))
        | (constructor <;> intro h <;> simp_all <;>
            first
              | decide
              | omega)
        | (simp_all <;>
            first
              | decide
              | omega)
        | (simp_all <;> constructor <;> intro h <;>
            first
              | decide
              | omega
              | exact absurd h (by decide)
              | exact absurd h (by omega))

theorem hasFlag_ite_or_iff (b : Prop) [inst : Decidable b] (x C m : Nat)
    (hC : ¬ hasFlag C m) :
    (hasFlag (if b then x ||| C else x) m ↔ hasFlag x m) := by
  split_ifs
  · rw [hasFlag_or_left]
    exact or_iff_left hC
  · exact Iff.rfl

theorem checkLog_hasFlag_entry (d : RunDir) (files : List FSFile)
    (hdir : d.dirExists = true) (hl : d.listing = some files)
    (m : Nat) (hm : m = FLAG_DATA_EMPTY ∨ m = FLAG_DATA_INVALID) :
    (hasFlag (CheckLogFiles d).flags m ↔
      ∃ f ∈ files, hasFlag (logEntryFlags d.run f) m) := by
  have hNF : ¬ hasFlag FLAG_NO_FEB_FILE m := by
    rcases hm with rfl | rfl <;> decide
  unfold CheckLogFiles CheckLogFilesFull
  rw [hdir, hl]
  simp only [Bool.not_true, Bool.false_eq_true, if_false]
  rw [hasFlag_ite_or_iff _ _ _ _ hNF, hasFlag_ite_or_iff _ _ _ _ hNF]
  rw [logFold_flags, hasFlag_or_left]
  have hr0 : ¬ hasFlag (({ result :=
      if d.logPresent = true then
        if d.logOpenable = true then { logExists := true }
        else { logExists := true, openErrorFiles := [logName d.run],
               flags := FLAG_FILE_OPEN }
      else { flags := FLAG_LOG_MISSING } } : LogScan)).result.flags m := by
    dsimp only
    split_ifs <;> dsimp only <;> rcases hm with rfl | rfl <;> decide
  rw [or_iff_right hr0, hasFlag_orList]
  constructor
  · rintro ⟨x, hxmem, hx⟩
    obtain ⟨f, hf, rfl⟩ := List.mem_map.mp hxmem
    exact ⟨f, hf, hx⟩
  · rintro ⟨f, hf, hx⟩
    exact ⟨logEntryFlags d.run f, List.mem_map.mpr ⟨f, hf, rfl⟩, hx⟩

/-- C3 (amended) — The aggregate rule of the claim holds for the
standalone scanner (src/CheckLogFiles.c): with at least one data file
present, its empty-data flag fires iff no data file is non-empty, and its
invalid-content flag fires iff some data file is non-empty but none is
valid.  In the main pipeline (src/Exorcism.c) the two flags are per-file
instead: the empty-data flag fires iff some well-formed, openable data
file is empty, and the invalid-content flag fires iff some well-formed,
openable, non-empty data file has invalid content, regardless of other
valid files. -/
theorem c3_empty_invalid_aggregation (d : RunDir) (files : List FSFile)
    (hdir : d.dirExists = true) (hl : d.listing = some files) :
    (hasFlag (CLF.checkLogFiles d) FLAG_DATA_EMPTY ↔
      0 < files.countP (clfDataNamed d.run) ∧
        files.countP (clfDataNonEmpty d.run) = 0) ∧
    (hasFlag (CLF.checkLogFiles d) FLAG_DATA_INVALID ↔
      0 < files.countP (clfDataNonEmpty d.run) ∧
        files.countP (clfDataValid d.run) = 0) ∧
    (hasFlag (CheckLogFiles d).flags FLAG_DATA_EMPTY ↔
      ∃ f ∈ files, wfDataEntryB d.run f = true ∧ f.openable = true ∧ f.size = 0) ∧
    (hasFlag (CheckLogFiles d).flags FLAG_DATA_INVALID ↔
      ∃ f ∈ files, wfDataEntryB d.run f = true ∧ f.openable = true ∧ 0 < f.size ∧
        checkDataFileContent f = false) := by
  obtain ⟨hs1, hs2⟩ := clf_flags_data_iff d files hdir hl
  refine ⟨hs1, hs2, ?_, ?_⟩
  · rw [checkLog_hasFlag_entry d files hdir hl FLAG_DATA_EMPTY (Or.inl rfl)]
    constructor
    · rintro ⟨f, hf, hx⟩
      exact ⟨f, hf, ((logEntryFlags_data_iff d.run f).1).mp hx⟩
    · rintro ⟨f, hf, hx⟩
      exact ⟨f, hf, ((logEntryFlags_data_iff d.run f).1).mpr hx⟩
  · rw [checkLog_hasFlag_entry d files hdir hl FLAG_DATA_INVALID (Or.inr rfl)]
    constructor
    · rintro ⟨f, hf, hx⟩
      exact ⟨f, hf, ((logEntryFlags_data_iff d.run f).2).mp hx⟩
    · rintro ⟨f, hf, hx⟩
      exact ⟨f, hf, ((logEntryFlags_data_iff d.run f).2).mpr hx⟩

/-- C3 counterexample — a run with one valid and one non-empty invalid
data file: the main pipeline raises the invalid-content flag although a
valid data file exists, while the standalone scanner (which implements the
claimed aggregate rule) does not. -/
theorem c3_empty_invalid_aggregation_counterexample :
    hasFlag (CheckLogFiles dirMixedValidity).flags FLAG_DATA_INVALID ∧
    (CheckLogFiles dirMixedValidity).validDataCount = 1 ∧
    ¬ hasFlag (CLF.checkLogFiles dirMixedValidity) FLAG_DATA_INVALID := by
  refine ⟨by decide, by decide, by decide⟩

/-- Witness for C3 at the mixed-validity run. -/
theorem c3_empty_invalid_aggregation_witness :
    (hasFlag (CLF.checkLogFiles dirMixedValidity) FLAG_DATA_EMPTY ↔
      0 < ([sampleValidData, sampleInvalidData] : List FSFile).countP
          (clfDataNamed dirMixedValidity.run) ∧
        ([sampleValidData, sampleInvalidData] : List FSFile).countP
          (clfDataNonEmpty dirMixedValidity.run) = 0) ∧
    (hasFlag (CLF.checkLogFiles dirMixedValidity) FLAG_DATA_INVALID ↔
      0 < ([sampleValidData, sampleInvalidData] : List FSFile).countP
          (clfDataNonEmpty dirMixedValidity.run) ∧
        ([sampleValidData, sampleInvalidData] : List FSFile).countP
          (clfDataValid dirMixedValidity.run) = 0) ∧
    (hasFlag (CheckLogFiles dirMixedValidity).flags FLAG_DATA_EMPTY ↔
      ∃ f ∈ ([sampleValidData, sampleInvalidData] : List FSFile),
        wfDataEntryB dirMixedValidity.run f = true ∧ f.openable = true ∧ f.size = 0) ∧
    (hasFlag (CheckLogFiles dirMixedValidity).flags FLAG_DATA_INVALID ↔
      ∃ f ∈ ([sampleValidData, sampleInvalidData] : List FSFile),
        wfDataEntryB dirMixedValidity.run f = true ∧ f.openable = true ∧ 0 < f.size ∧
        checkDataFileContent f = false) :=
  c3_empty_invalid_aggregation dirMixedValidity [sampleValidData, sampleInvalidData] rfl rfl

set_option maxHeartbeats 1600000 in
theorem logStep_dataFileCount (run : Name) (s : LogScan) (f : FSFile) :
    (logStep run s f).result.dataFileCount
        = s.result.dataFileCount + (if dataNamedB run f then 1 else 0) := by
  unfold logStep dataNamedB logUnexpected processData
  cases harr : strIndex f.name arrMark <;> dsimp only <;> split_ifs <;>
    first
      | rfl
      | (simp only [List.length_append, List.length_cons, List.length_nil]; omega)
      | (simp_all <;> done)
      | omega

set_option maxHeartbeats 1600000 in
theorem logStep_dataFilesLen (run : Name) (s : LogScan) (f : FSFile) :
    (logStep run s f).dataFiles.length
        = s.dataFiles.length + (if wfDataEntryB run f then 1 else 0) := by
  unfold logStep wfDataEntryB logUnexpected processData
  cases harr : strIndex f.name arrMark <;> dsimp only <;> split_ifs <;>
    first
      | rfl
      | (simp only [List.length_append, List.length_cons, List.length_nil]; omega)
      | (simp_all <;> done)
      | omega

set_option maxHeartbeats 1600000 in
theorem logStep_testerFilesLen (run : Name) (s : LogScan) (f : FSFile) :
    (logStep run s f).testerFiles.length
        = s.testerFiles.length + (if testerAcceptB run f then 1 else 0) := by
  unfold logStep testerAcceptB logUnexpected processData
  cases harr : strIndex f.name arrMark <;> dsimp only <;> split_ifs <;>
    first
      | rfl
      | (simp only [List.length_append, List.length_cons, List.length_nil]; omega)
      | (simp_all <;> done)
      | omega

set_option maxHeartbeats 1600000 in
theorem logStep_unexpectedLen (run : Name) (s : LogScan) (f : FSFile) :
    (logStep run s f).result.unexpectedFiles.length
        = s.result.unexpectedFiles.length + (if logUnexpB run f then 1 else 0) := by
  unfold logStep logUnexpB logUnexpected processData
  cases harr : strIndex f.name arrMark <;> dsimp only <;> split_ifs <;>
    first
      | rfl
      | (simp only [List.length_append, List.length_cons, List.length_nil]; omega)
      | (simp_all <;> done)
      | omega

theorem logStep_counts (run : Name) (s : LogScan) (f : FSFile) :
    (logStep run s f).result.dataFileCount
        = s.result.dataFileCount + (if dataNamedB run f then 1 else 0) ∧
    (logStep run s f).dataFiles.length
        = s.dataFiles.length + (if wfDataEntryB run f then 1 else 0) ∧
    (logStep run s f).testerFiles.length
        = s.testerFiles.length + (if testerAcceptB run f then 1 else 0) ∧
    (logStep run s f).result.unexpectedFiles.length
        = s.result.unexpectedFiles.length + (if logUnexpB run f then 1 else 0) :=
  ⟨logStep_dataFileCount run s f, logStep_dataFilesLen run s f,
   logStep_testerFilesLen run s f, logStep_unexpectedLen run s f⟩

theorem logFold_counts (run : Name) : ∀ (files : List FSFile) (s : LogScan),
    (files.foldl (logStep run) s).result.dataFileCount
        = s.result.dataFileCount + files.countP (dataNamedB run) ∧
    (files.foldl (logStep run) s).dataFiles.length
        = s.dataFiles.length + files.countP (wfDataEntryB run) ∧
    (files.foldl (logStep run) s).testerFiles.length
        = s.testerFiles.length + files.countP (testerAcceptB run) ∧
    (files.foldl (logStep run) s).result.unexpectedFiles.length
        = s.result.unexpectedFiles.length + files.countP (logUnexpB run) := by
  intro files
  induction files with
  | nil =>
    intro s
    simp [List.countP_nil]
  | cons f fs ih =>
    intro s
    rw [List.foldl_cons]
    obtain ⟨i1, i2, i3, i4⟩ := ih (logStep run s f)
    obtain ⟨s1, s2, s3, s4⟩ := logStep_counts run s f
    rw [List.countP_cons, List.countP_cons, List.countP_cons, List.countP_cons]
    refine ⟨?_, ?_, ?_, ?_⟩
    · rw [i1, s1]
      split_ifs <;> omega
    · rw [i2, s2]
      split_ifs <;> omega
    · rw [i3, s3]
      split_ifs <;> omega
    · rw [i4, s4]
      split_ifs <;> omega

theorem logFoldFrom_counts (run : Name) (files : List FSFile) (r0 : ValidationResult)
    (e1 : r0.dataFileCount = 0) (e2 : r0.unexpectedFiles = ([] : List Name)) :
    (files.foldl (logStep run) { result := r0 }).result.dataFileCount
        = files.countP (dataNamedB run) ∧
    (files.foldl (logStep run) { result := r0 }).dataFiles.length
        = files.countP (wfDataEntryB run) ∧
    (List.insertionSort testerLe
        (files.foldl (logStep run) { result := r0 }).testerFiles).length
        = files.countP (testerAcceptB run) ∧
    (files.foldl (logStep run) { result := r0 }).result.unexpectedFiles.length
        = files.countP (logUnexpB run) := by
  obtain ⟨h1, h2, h3, h4⟩ := logFold_counts run files { result := r0 }
  refine ⟨?_, ?_, ?_, ?_⟩
  · rw [h1]
    show r0.dataFileCount + _ = _
    rw [e1]
    omega
  · rw [h2]
    simp
  · rw [(List.perm_insertionSort testerLe _).length_eq, h3]
    simp
  · rw [h4]
    show (r0.unexpectedFiles).length + _ = _
    rw [e2]
    simp

theorem checkLogFull_counts (d : RunDir) (files : List FSFile)
    (hdir : d.dirExists = true) (hl : d.listing = some files) :
    (CheckLogFilesFull d).result.dataFileCount = files.countP (dataNamedB d.run) ∧
    (CheckLogFilesFull d).dataFiles.length = files.countP (wfDataEntryB d.run) ∧
    (CheckLogFilesFull d).sortedTesters.length = files.countP (testerAcceptB d.run) ∧
    (CheckLogFilesFull d).result.unexpectedFiles.length
        = files.countP (logUnexpB d.run) := by
  unfold CheckLogFilesFull
  rw [hdir, hl]
  simp only [Bool.not_true, Bool.false_eq_true, if_false]
  exact logFoldFrom_counts d.run files _ (by split_ifs <;> rfl) (by split_ifs <;> rfl)

theorem logEntry_partition (run : Name) (f : FSFile) :
    (if logNamedB run f then 1 else 0) + (if wfDataEntryB run f then 1 else 0) +
    (if testerAcceptB run f then 1 else 0) + (if logUnexpB run f then 1 else 0)
      = (if processedEntryB f then 1 else 0) := by
  unfold logNamedB wfDataEntryB testerAcceptB logUnexpB processedEntryB
  split_ifs <;>
    first
      | rfl
      | omega
      | (simp_all <;> done)
      | (cases harr : strIndex f.name arrMark <;> simp_all <;> done)

theorem dataNamed_entry_split (run : Name) (f : FSFile) :
    (if dataNamedB run f then 1 else 0)
      = (if wfDataEntryB run f then 1 else 0) + (if malformedDataB run f then 1 else 0) := by
  unfold dataNamedB wfDataEntryB malformedDataB
  split_ifs <;> first | rfl | simp_all | omega

theorem logCount_partition (run : Name) (files : List FSFile) :
    files.countP (logNamedB run) + files.countP (wfDataEntryB run) +
    files.countP (testerAcceptB run) + files.countP (logUnexpB run)
      = files.countP processedEntryB := by
  induction files with
  | nil => rfl
  | cons f fs ih =>
    have h := logEntry_partition run f
    cases h1 : logNamedB run f <;> cases h2 : wfDataEntryB run f <;>
      cases h3 : testerAcceptB run f <;> cases h4 : logUnexpB run f <;>
        cases h5 : processedEntryB f <;>
          simp_all [List.countP_cons] <;> omega

theorem dataNamedCount_split (run : Name) (files : List FSFile) :
    files.countP (dataNamedB run)
      = files.countP (wfDataEntryB run) + files.countP (malformedDataB run) := by
  induction files with
  | nil => rfl
  | cons f fs ih =>
    have h := dataNamed_entry_split run f
    cases h1 : dataNamedB run f <;> cases h2 : wfDataEntryB run f <;>
      cases h3 : malformedDataB run f <;>
        simp_all [List.countP_cons] <;> omega

theorem pscanStep_counts (run : Name) (s : ValidationResult) (f : FSFile) :
    (pscanStep run s f).electronTxtCount
        = s.electronTxtCount + (if pscanTxtEB f then 1 else 0) ∧
    (pscanStep run s f).holeTxtCount
        = s.holeTxtCount + (if pscanTxtHB f then 1 else 0) ∧
    (pscanStep run s f).electronRootCount
        = s.electronRootCount + (if pscanRootEB f then 1 else 0) ∧
    (pscanStep run s f).holeRootCount
        = s.holeRootCount + (if pscanRootHB f then 1 else 0) ∧
    (pscanStep run s f).unexpectedFiles.length
        = s.unexpectedFiles.length + (if pscanUnexpB run f then 1 else 0) := by
  unfold pscanStep pscanTxtEB pscanTxtHB pscanRootEB pscanRootHB pscanUnexpB
    pscanTxtAccess pscanRootAccess
  split_ifs <;> refine ⟨?_, ?_, ?_, ?_, ?_⟩ <;> first | simp_all | simp | omega

theorem pscanFold_counts (run : Name) : ∀ (files : List FSFile) (s : ValidationResult),
    (files.foldl (pscanStep run) s).electronTxtCount
        = s.electronTxtCount + files.countP pscanTxtEB ∧
    (files.foldl (pscanStep run) s).holeTxtCount
        = s.holeTxtCount + files.countP pscanTxtHB ∧
    (files.foldl (pscanStep run) s).electronRootCount
        = s.electronRootCount + files.countP pscanRootEB ∧
    (files.foldl (pscanStep run) s).holeRootCount
        = s.holeRootCount + files.countP pscanRootHB ∧
    (files.foldl (pscanStep run) s).unexpectedFiles.length
        = s.unexpectedFiles.length + files.countP (pscanUnexpB run) := by
  intro files
  induction files with
  | nil =>
    intro s
    simp [List.countP_nil]
  | cons f fs ih =>
    intro s
    rw [List.foldl_cons]
    obtain ⟨i1, i2, i3, i4, i5⟩ := ih (pscanStep run s f)
    obtain ⟨s1, s2, s3, s4, s5⟩ := pscanStep_counts run s f
    rw [List.countP_cons, List.countP_cons, List.countP_cons, List.countP_cons,
      List.countP_cons]
    refine ⟨?_, ?_, ?_, ?_, ?_⟩
    · rw [i1, s1]
      split_ifs <;> omega
    · rw [i2, s2]
      split_ifs <;> omega
    · rw [i3, s3]
      split_ifs <;> omega
    · rw [i4, s4]
      split_ifs <;> omega
    · rw [i5, s5]
      split_ifs <;> omega

theorem pscanModuleChecks_counts (run : Name) (m : PscanModuleInfo) :
    (pscanModuleChecks run m).electronTxtCount = 0 ∧
    (pscanModuleChecks run m).holeTxtCount = 0 ∧
    (pscanModuleChecks run m).electronRootCount = 0 ∧
    (pscanModuleChecks run m).holeRootCount = 0 ∧
    (pscanModuleChecks run m).unexpectedFiles = ([] : List Name) := by
  unfold pscanModuleChecks
  dsimp only
  split_ifs <;> exact ⟨rfl, rfl, rfl, rfl, rfl⟩

theorem checkPscan_counts (d : RunDir) (pfiles : List FSFile)
    (hp : d.pscanExists = true) (hpl : d.pscanListing = some pfiles) :
    (CheckPscanFiles d).electronTxtCount = pfiles.countP pscanTxtEB ∧
    (CheckPscanFiles d).holeTxtCount = pfiles.countP pscanTxtHB ∧
    (CheckPscanFiles d).electronRootCount = pfiles.countP pscanRootEB ∧
    (CheckPscanFiles d).holeRootCount = pfiles.countP pscanRootHB ∧
    (CheckPscanFiles d).unexpectedFiles.length
        = pfiles.countP (pscanUnexpB d.run) := by
  unfold CheckPscanFiles
  rw [hp, hpl]
  simp only [Bool.not_true, Bool.false_eq_true, if_false]
  obtain ⟨h1, h2, h3, h4, h5⟩ :=
    pscanFold_counts d.run pfiles (pscanModuleChecks d.run d.pscanModule)
  obtain ⟨e1, e2, e3, e4, e5⟩ := pscanModuleChecks_counts d.run d.pscanModule
  refine ⟨?_, ?_, ?_, ?_, ?_⟩
  · show (pfiles.foldl (pscanStep d.run) (pscanModuleChecks d.run d.pscanModule)).electronTxtCount = _
    rw [h1, e1]
    omega
  · show (pfiles.foldl (pscanStep d.run) (pscanModuleChecks d.run d.pscanModule)).holeTxtCount = _
    rw [h2, e2]
    omega
  · show (pfiles.foldl (pscanStep d.run) (pscanModuleChecks d.run d.pscanModule)).electronRootCount = _
    rw [h3, e3]
    omega
  · show (pfiles.foldl (pscanStep d.run) (pscanModuleChecks d.run d.pscanModule)).holeRootCount = _
    rw [h4, e4]
    omega
  · show (pfiles.foldl (pscanStep d.run) (pscanModuleChecks d.run d.pscanModule)).unexpectedFiles.length = _
    rw [h5, e5]
    simp

theorem pscanEntry_partition (run : Name) (f : FSFile) :
    (if pscanTxtEB f then 1 else 0) + (if pscanTxtHB f then 1 else 0) +
    (if pscanRootEB f then 1 else 0) + (if pscanRootHB f then 1 else 0) +
    (if pscanAuxB run f then 1 else 0) + (if pscanUnexpB run f then 1 else 0)
      = (if processedEntryB f then 1 else 0) := by
  unfold pscanTxtEB pscanTxtHB pscanRootEB pscanRootHB pscanAuxB pscanUnexpB processedEntryB
  split_ifs <;> first | rfl | simp_all | omega

theorem pscanCount_partition (run : Name) (files : List FSFile) :
    files.countP pscanTxtEB + files.countP pscanTxtHB +
    files.countP pscanRootEB + files.countP pscanRootHB +
    files.countP (pscanAuxB run) + files.countP (pscanUnexpB run)
      = files.countP processedEntryB := by
  induction files with
  | nil => rfl
  | cons f fs ih =>
    have h := pscanEntry_partition run f
    cases h1 : pscanTxtEB f <;> cases h2 : pscanTxtHB f <;>
      cases h3 : pscanRootEB f <;> cases h4 : pscanRootHB f <;>
        cases h5 : pscanAuxB run f <;> cases h6 : pscanUnexpB run f <;>
          cases h7 : processedEntryB f <;>
            simp_all [List.countP_cons] <;> omega

/-- C4 (amended) — Classification at the level of category membership is
total and exclusive for both scanning loops: in the log area every
processed (non-directory, non-dot) entry lands in exactly one of expected
log file, well-formed data file, accepted tester file, or unexpected file,
and in the pscan area in exactly one of the four counted suffix classes,
accepted module/auxiliary file, or unexpected file, with the pscan counts
summing exactly to the processed total.  However the log area's reported
data-file count `dataFileCount` also counts every malformed data-named
entry, which is simultaneously recorded as unexpected, so the sum of the
log area's reported per-category counts exceeds the number of processed
entries by exactly the number of malformed data-named entries. -/
theorem c4_classification_totality (d : RunDir) (files pfiles : List FSFile)
    (hdir : d.dirExists = true) (hl : d.listing = some files)
    (hp : d.pscanExists = true) (hpl : d.pscanListing = some pfiles) :
    (files.countP (logNamedB d.run) + files.countP (wfDataEntryB d.run) +
      files.countP (testerAcceptB d.run) + files.countP (logUnexpB d.run)
        = files.countP processedEntryB) ∧
    ((CheckLogFiles d).dataFileCount = files.countP (dataNamedB d.run) ∧
     (CheckLogFilesFull d).dataFiles.length = files.countP (wfDataEntryB d.run) ∧
     (CheckLogFilesFull d).sortedTesters.length = files.countP (testerAcceptB d.run) ∧
     (CheckLogFiles d).unexpectedFiles.length = files.countP (logUnexpB d.run)) ∧
    ((CheckLogFiles d).dataFileCount
        = files.countP (wfDataEntryB d.run) + files.countP (malformedDataB d.run)) ∧
    ((CheckLogFiles d).dataFileCount + (CheckLogFilesFull d).sortedTesters.length +
      (CheckLogFiles d).unexpectedFiles.length + files.countP (logNamedB d.run)
        = files.countP processedEntryB + files.countP (malformedDataB d.run)) ∧
    ((CheckPscanFiles d).electronTxtCount = pfiles.countP pscanTxtEB ∧
     (CheckPscanFiles d).holeTxtCount = pfiles.countP pscanTxtHB ∧
     (CheckPscanFiles d).electronRootCount = pfiles.countP pscanRootEB ∧
     (CheckPscanFiles d).holeRootCount = pfiles.countP pscanRootHB ∧
     (CheckPscanFiles d).unexpectedFiles.length = pfiles.countP (pscanUnexpB d.run)) ∧
    ((CheckPscanFiles d).electronTxtCount + (CheckPscanFiles d).holeTxtCount +
      (CheckPscanFiles d).electronRootCount + (CheckPscanFiles d).holeRootCount +
      pfiles.countP (pscanAuxB d.run) + (CheckPscanFiles d).unexpectedFiles.length
        = pfiles.countP processedEntryB) := by
  obtain ⟨k1, k2, k3, k4⟩ := checkLogFull_counts d files hdir hl
  obtain ⟨p1, p2, p3, p4, p5⟩ := checkPscan_counts d pfiles hp hpl
  have hpart := logCount_partition d.run files
  have hsplit := dataNamedCount_split d.run files
  have hppart := pscanCount_partition d.run pfiles
  refine ⟨hpart, ⟨k1, k2, k3, k4⟩, ?_, ?_, ⟨p1, p2, p3, p4, p5⟩, ?_⟩
  · unfold CheckLogFiles
    rw [k1]
    exact hsplit
  · unfold CheckLogFiles
    rw [k1, k3, k4]
    omega
  · rw [p1, p2, p3, p4, p5]
    omega

/-- C4 counterexample — a single malformed data-named file (it begins
with the run name and ends in `_data.dat`, but has neither the
36-character timestamped form nor the bare form): the loop counts it in
`dataFileCount` and also records it as unexpected, so the reported
per-category counts sum to 2 for a listing with 1 processed entry. -/
theorem c4_classification_totality_counterexample :
    (CheckLogFiles dirMalformedData).dataFileCount = 1 ∧
    (CheckLogFiles dirMalformedData).unexpectedFiles = [sampleMalformedTSData.name] ∧
    (CheckLogFilesFull dirMalformedData).sortedTesters.length = 0 ∧
    ([sampleMalformedTSData] : List FSFile).countP (logNamedB sampleShortRun) = 0 ∧
    ([sampleMalformedTSData] : List FSFile).countP processedEntryB = 1 ∧
    (CheckLogFiles dirMalformedData).dataFileCount +
      (CheckLogFilesFull dirMalformedData).sortedTesters.length +
      (CheckLogFiles dirMalformedData).unexpectedFiles.length +
      ([sampleMalformedTSData] : List FSFile).countP (logNamedB sampleShortRun)
      ≠ ([sampleMalformedTSData] : List FSFile).countP processedEntryB := by
  refine ⟨by decide, by decide, by decide, by decide, by decide, by decide⟩

/-- Witness for C4 at the malformed-data run (empty pscan listing). -/
theorem c4_classification_totality_witness :
    (([sampleMalformedTSData] : List FSFile).countP (logNamedB dirMalformedData.run) +
      ([sampleMalformedTSData] : List FSFile).countP (wfDataEntryB dirMalformedData.run) +
      ([sampleMalformedTSData] : List FSFile).countP (testerAcceptB dirMalformedData.run) +
      ([sampleMalformedTSData] : List FSFile).countP (logUnexpB dirMalformedData.run)
        = ([sampleMalformedTSData] : List FSFile).countP processedEntryB) ∧
    ((CheckLogFiles dirMalformedData).dataFileCount
        = ([sampleMalformedTSData] : List FSFile).countP (dataNamedB dirMalformedData.run) ∧
     (CheckLogFilesFull dirMalformedData).dataFiles.length
        = ([sampleMalformedTSData] : List FSFile).countP (wfDataEntryB dirMalformedData.run) ∧
     (CheckLogFilesFull dirMalformedData).sortedTesters.length
        = ([sampleMalformedTSData] : List FSFile).countP (testerAcceptB dirMalformedData.run) ∧
     (CheckLogFiles dirMalformedData).unexpectedFiles.length
        = ([sampleMalformedTSData] : List FSFile).countP (logUnexpB dirMalformedData.run)) ∧
    ((CheckLogFiles dirMalformedData).dataFileCount
        = ([sampleMalformedTSData] : List FSFile).countP (wfDataEntryB dirMalformedData.run) +
          ([sampleMalformedTSData] : List FSFile).countP (malformedDataB dirMalformedData.run)) ∧
    ((CheckLogFiles dirMalformedData).dataFileCount +
      (CheckLogFilesFull dirMalformedData).sortedTesters.length +
      (CheckLogFiles dirMalformedData).unexpectedFiles.length +
      ([sampleMalformedTSData] : List FSFile).countP (logNamedB dirMalformedData.run)
        = ([sampleMalformedTSData] : List FSFile).countP processedEntryB +
          ([sampleMalformedTSData] : List FSFile).countP (malformedDataB dirMalformedData.run)) ∧
    ((CheckPscanFiles dirMalformedData).electronTxtCount
        = ([] : List FSFile).countP pscanTxtEB ∧
     (CheckPscanFiles dirMalformedData).holeTxtCount
        = ([] : List FSFile).countP pscanTxtHB ∧
     (CheckPscanFiles dirMalformedData).electronRootCount
        = ([] : List FSFile).countP pscanRootEB ∧
     (CheckPscanFiles dirMalformedData).holeRootCount
        = ([] : List FSFile).countP pscanRootHB ∧
     (CheckPscanFiles dirMalformedData).unexpectedFiles.length
        = ([] : List FSFile).countP (pscanUnexpB dirMalformedData.run)) ∧
    ((CheckPscanFiles dirMalformedData).electronTxtCount +
      (CheckPscanFiles dirMalformedData).holeTxtCount +
      (CheckPscanFiles dirMalformedData).electronRootCount +
      (CheckPscanFiles dirMalformedData).holeRootCount +
      ([] : List FSFile).countP (pscanAuxB dirMalformedData.run) +
      (CheckPscanFiles dirMalformedData).unexpectedFiles.length
        = ([] : List FSFile).countP processedEntryB) :=
  c4_classification_totality dirMalformedData [sampleMalformedTSData] [] rfl rfl rfl rfl

theorem getD_set_self_true : ∀ (m : List Bool) (i : Nat),
    ((m.set i true).getD i true) = true := by
  intro m
  induction m with
  | nil => intro i; simp
  | cons b bs ih =>
    intro i
    cases i with
    | zero => simp
    | succ i => simpa using ih i

theorem getD_set_ne_true : ∀ (m : List Bool) (i j : Nat), i ≠ j →
    ((m.set i true).getD j true) = m.getD j true := by
  intro m
  induction m with
  | nil => intro i j h; simp
  | cons b bs ih =>
    intro i j h
    cases i with
    | zero =>
      cases j with
      | zero => exact absurd rfl h
      | succ j => simp
    | succ i =>
      cases j with
      | zero => simp
      | succ j => simpa using ih i j (fun hc => h (by rw [hc]))

theorem getD_set_true_iff (m : List Bool) (i j : Nat) :
    ((m.set i true).getD j true = true) ↔ (j = i ∨ m.getD j true = true) := by
  by_cases hij : j = i
  · subst hij
    exact ⟨fun _ => Or.inl rfl, fun _ => getD_set_self_true m j⟩
  · rw [getD_set_ne_true m i j (fun hc => hij hc.symm)]
    simp [hij]

theorem getD_replicate_false : ∀ (n j : Nat), j < n →
    ((List.replicate n false).getD j true) = false := by
  intro n
  induction n with
  | zero => intro j hj; omega
  | succ n ih =>
    intro j hj
    cases j with
    | zero => simp [List.replicate_succ]
    | succ j =>
      rw [List.replicate_succ]
      simpa using ih j (by omega)

theorem findIdxAux_some_spec (pred : FileInfo → Bool) :
    ∀ (ts : List FileInfo) (m : List Bool) (i : Nat),
      findIdxAux pred ts m = some i →
      i < ts.length ∧ i < m.length ∧ m.getD i true = false ∧
      pred (ts.getD i fiDefault) = true ∧
      ∀ j, j < i → ¬(m.getD j true = false ∧ pred (ts.getD j fiDefault) = true) := by
  intro ts
  induction ts with
  | nil => intro m i h; simp [findIdxAux] at h
  | cons t ts ih =>
    intro m i h
    cases m with
    | nil => simp [findIdxAux] at h
    | cons b ms =>
      rw [findIdxAux] at h
      by_cases hc : (!b && pred t) = true
      · rw [if_pos hc] at h
        injection h with h0
        subst h0
        simp only [Bool.and_eq_true, Bool.not_eq_true'] at hc
        refine ⟨by simp, by simp, by simpa using hc.1, by simpa using hc.2, ?_⟩
        intro j hj
        omega
      · rw [if_neg hc] at h
        obtain ⟨k, hk, hki⟩ : ∃ k, findIdxAux pred ts ms = some k ∧ k + 1 = i := by
          cases hfa : findIdxAux pred ts ms with
          | none => rw [hfa] at h; simp at h
          | some k => rw [hfa] at h; simp at h; exact ⟨k, rfl, h⟩
        subst hki
        obtain ⟨l1, l2, l3, l4, l5⟩ := ih ms k hk
        refine ⟨by simpa using Nat.succ_lt_succ l1, by simpa using Nat.succ_lt_succ l2,
          by simpa using l3, by simpa using l4, ?_⟩
        intro j hj
        cases j with
        | zero =>
          rintro ⟨hm0, hp0⟩
          simp only [List.getD_cons_zero] at hm0 hp0
          exact hc (by simp [hm0, hp0])
        | succ j =>
          rintro ⟨hmj, hpj⟩
          exact l5 j (by omega) ⟨by simpa using hmj, by simpa using hpj⟩

theorem findIdxAux_none_spec (pred : FileInfo → Bool) :
    ∀ (ts : List FileInfo) (m : List Bool),
      findIdxAux pred ts m = none →
      ∀ j, j < ts.length → j < m.length →
        ¬(m.getD j true = false ∧ pred (ts.getD j fiDefault) = true) := by
  intro ts
  induction ts with
  | nil =>
    intro m h j hj hjm
    exact absurd hj (by simp)
  | cons t ts ih =>
    intro m h
    cases m with
    | nil =>
      intro j hjt hjm
      exact absurd hjm (by simp)
    | cons b ms =>
      rw [findIdxAux] at h
      by_cases hc : (!b && pred t) = true
      · rw [if_pos hc] at h
        exact absurd h (by simp)
      · rw [if_neg hc] at h
        have hrec : findIdxAux pred ts ms = none := by
          cases hfa : findIdxAux pred ts ms with
          | none => rfl
          | some k => rw [hfa] at h; simp at h
        intro j hjt hjm
        cases j with
        | zero =>
          rintro ⟨hm0, hp0⟩
          simp only [List.getD_cons_zero] at hm0 hp0
          exact hc (by simp [hm0, hp0])
        | succ j =>
          rintro ⟨hmj, hpj⟩
          exact ih ms hrec j (by simpa using hjt) (by simpa using hjm)
            ⟨by simpa using hmj, by simpa using hpj⟩

theorem stepChoice_some_spec (ts : List FileInfo) (d : FileInfo) (m : List Bool) (i : Nat)
    (h : stepChoice ts d m = some i) :
    i < ts.length ∧ i < m.length ∧ m.getD i true = false ∧
    (d.isSpecialCase = false → (ts.getD i fiDefault).dateTimePattern = d.dateTimePattern) ∧
    (∀ j, j < i → m.getD j true = false →
      d.isSpecialCase = false ∧ ¬((ts.getD j fiDefault).dateTimePattern = d.dateTimePattern)) := by
  unfold stepChoice at h
  split_ifs at h with hsp
  · obtain ⟨l1, l2, l3, l4, l5⟩ := findIdxAux_some_spec _ ts m i h
    refine ⟨l1, l2, l3, fun hf => absurd hsp (by simp [hf]), ?_⟩
    intro j hj hmj
    exact (l5 j hj ⟨hmj, rfl⟩).elim
  · obtain ⟨l1, l2, l3, l4, l5⟩ := findIdxAux_some_spec _ ts m i h
    refine ⟨l1, l2, l3, fun _ => by simpa using l4, ?_⟩
    intro j hj hmj
    refine ⟨by simpa using hsp, fun hpat => l5 j hj ⟨hmj, by simpa using hpat⟩⟩

theorem stepChoice_none_spec (ts : List FileInfo) (d : FileInfo) (m : List Bool)
    (h : stepChoice ts d m = none) :
    ∀ j, j < ts.length → j < m.length → m.getD j true = false →
      d.isSpecialCase = false ∧ ¬((ts.getD j fiDefault).dateTimePattern = d.dateTimePattern) := by
  unfold stepChoice at h
  split_ifs at h with hsp
  · intro j hjt hjm hmj
    exact (findIdxAux_none_spec _ ts m h j hjt hjm ⟨hmj, rfl⟩).elim
  · intro j hjt hjm hmj
    refine ⟨by simpa using hsp,
      fun hpat => findIdxAux_none_spec _ ts m h j hjt hjm ⟨hmj, by simpa using hpat⟩⟩

theorem matchLoop_cons (ts : List FileInfo) (d : FileInfo) (ds : List FileInfo) (m : List Bool) :
    matchLoop ts (d :: ds) m =
      ((d, stepChoice ts d m) ::
        (matchLoop ts ds (stepMask m (stepChoice ts d m))).1,
       (matchLoop ts ds (stepMask m (stepChoice ts d m))).2) := rfl

theorem matchLoop_fst (ts : List FileInfo) : ∀ (ds : List FileInfo) (m : List Bool),
    (matchLoop ts ds m).1.map Prod.fst = ds := by
  intro ds
  induction ds with
  | nil => intro m; rfl
  | cons d ds ih =>
    intro m
    rw [matchLoop_cons, List.map_cons, ih]

theorem matchLoop_mask_spec (ts : List FileInfo) : ∀ (ds : List FileInfo) (m : List Bool) (j : Nat),
    (((matchLoop ts ds m).2).getD j true = true ↔
      (m.getD j true = true ∨ j ∈ (matchLoop ts ds m).1.filterMap Prod.snd)) := by
  intro ds
  induction ds with
  | nil => intro m j; simp [matchLoop]
  | cons d ds ih =>
    intro m j
    rw [matchLoop_cons]
    cases hoi : stepChoice ts d m with
    | none =>
      rw [filterMap_cons_none_eq Prod.snd (d, none) _ rfl]
      show ((matchLoop ts ds (stepMask m none)).2).getD j true = true ↔ _
      rw [show stepMask m none = m from rfl]
      exact ih m j
    | some i =>
      rw [filterMap_cons_some_eq Prod.snd (d, some i) _ i rfl]
      show ((matchLoop ts ds (stepMask m (some i))).2).getD j true = true ↔
        _ ∨ j ∈ i :: (matchLoop ts ds (stepMask m (some i))).1.filterMap Prod.snd
      rw [show stepMask m (some i) = m.set i true from rfl]
      rw [ih (m.set i true) j, getD_set_true_iff, List.mem_cons]
      tauto

theorem matchLoop_chosen_false (ts : List FileInfo) :
    ∀ (ds : List FileInfo) (m : List Bool) (i : Nat),
      i ∈ (matchLoop ts ds m).1.filterMap Prod.snd →
      m.getD i true = false ∧ i < m.length := by
  intro ds
  induction ds with
  | nil => intro m i h; simp [matchLoop] at h
  | cons d ds ih =>
    intro m i h
    rw [matchLoop_cons] at h
    cases hoi : stepChoice ts d m with
    | none =>
      rw [hoi] at h
      rw [filterMap_cons_none_eq Prod.snd (d, none) _ rfl] at h
      exact ih m i h
    | some i0 =>
      rw [hoi] at h
      rw [filterMap_cons_some_eq Prod.snd (d, some i0) _ i0 rfl] at h
      rcases List.mem_cons.mp h with hq | hrest
      · subst hq
        obtain ⟨l1, l2, l3, l4, l5⟩ := stepChoice_some_spec ts d m i hoi
        exact ⟨l3, l2⟩
      · obtain ⟨hfalse, hlen⟩ := ih (stepMask m (some i0)) i hrest
        rw [show stepMask m (some i0) = m.set i0 true from rfl] at hfalse hlen
        constructor
        · by_cases hii : i = i0
          · subst hii
            rw [getD_set_self_true] at hfalse
            exact absurd hfalse (by simp)
          · rw [getD_set_ne_true m i0 i (fun hc => hii hc.symm)] at hfalse
            exact hfalse
        · simpa using hlen

theorem matchLoop_nodup (ts : List FileInfo) : ∀ (ds : List FileInfo) (m : List Bool),
    ((matchLoop ts ds m).1.filterMap Prod.snd).Nodup := by
  intro ds
  induction ds with
  | nil => intro m; simp [matchLoop]
  | cons d ds ih =>
    intro m
    rw [matchLoop_cons]
    cases hoi : stepChoice ts d m with
    | none =>
      rw [filterMap_cons_none_eq Prod.snd (d, none) _ rfl]
      exact ih (stepMask m none)
    | some i0 =>
      rw [filterMap_cons_some_eq Prod.snd (d, some i0) _ i0 rfl]
      refine List.nodup_cons.mpr ⟨?_, ih (stepMask m (some i0))⟩
      intro hmem
      have := (matchLoop_chosen_false ts ds (stepMask m (some i0)) i0 hmem).1
      rw [show stepMask m (some i0) = m.set i0 true from rfl, getD_set_self_true] at this
      exact absurd this (by simp)

theorem matchLoop_some_sound (ts : List FileInfo) :
    ∀ (ds : List FileInfo) (m : List Bool) (d : FileInfo) (i : Nat),
      (d, some i) ∈ (matchLoop ts ds m).1 →
      i < ts.length ∧
        (d.isSpecialCase = false →
          (ts.getD i fiDefault).dateTimePattern = d.dateTimePattern) := by
  intro ds
  induction ds with
  | nil => intro m d i h; simp [matchLoop] at h
  | cons d0 ds ih =>
    intro m d i h
    rw [matchLoop_cons] at h
    rcases List.mem_cons.mp h with heq | hrest
    · have hd : d = d0 := congrArg Prod.fst heq
      have hoi : stepChoice ts d0 m = some i := (congrArg Prod.snd heq).symm
      subst hd
      obtain ⟨l1, l2, l3, l4, l5⟩ := stepChoice_some_spec ts d m i hoi
      exact ⟨l1, l4⟩
    · exact ih (stepMask m (stepChoice ts d0 m)) d i hrest

theorem matchLoop_some_min (ts : List FileInfo) :
    ∀ (ds : List FileInfo) (m : List Bool) (d : FileInfo) (i : Nat),
      (d, some i) ∈ (matchLoop ts ds m).1 →
      ∀ j, j < i →
        (d.isSpecialCase = true ∨ (ts.getD j fiDefault).dateTimePattern = d.dateTimePattern) →
        (m.getD j true = true ∨ j ∈ (matchLoop ts ds m).1.filterMap Prod.snd) := by
  intro ds
  induction ds with
  | nil => intro m d i h; simp [matchLoop] at h
  | cons d0 ds ih =>
    intro m d i h j hj hcond
    rw [matchLoop_cons] at h ⊢
    rcases List.mem_cons.mp h with heq | hrest
    · have hd : d = d0 := congrArg Prod.fst heq
      have hoi : stepChoice ts d0 m = some i := (congrArg Prod.snd heq).symm
      subst hd
      obtain ⟨l1, l2, l3, l4, l5⟩ := stepChoice_some_spec ts d m i hoi
      left
      cases hmv : m.getD j true with
      | true => rfl
      | false =>
        obtain ⟨hnsp, hnpat⟩ := l5 j hj hmv
        rcases hcond with hsp | hpat
        · rw [hnsp] at hsp
          exact absurd hsp (by simp)
        · exact absurd hpat hnpat
    · cases hoi : stepChoice ts d0 m with
      | none =>
        rw [hoi] at hrest
        rcases ih (stepMask m none) d i hrest j hj hcond with hl | hr
        · exact Or.inl hl
        · right
          rw [filterMap_cons_none_eq Prod.snd (d0, none) _ rfl]
          exact hr
      | some i0 =>
        rw [hoi] at hrest
        rcases ih (stepMask m (some i0)) d i hrest j hj hcond with hl | hr
        · rw [show stepMask m (some i0) = m.set i0 true from rfl] at hl
          rcases (getD_set_true_iff m i0 j).mp hl with hji | hmt
          · right
            rw [filterMap_cons_some_eq Prod.snd (d0, some i0) _ i0 rfl]
            exact List.mem_cons.mpr (Or.inl hji)
          · exact Or.inl hmt
        · right
          rw [filterMap_cons_some_eq Prod.snd (d0, some i0) _ i0 rfl]
          exact List.mem_cons.mpr (Or.inr hr)

theorem matchLoop_none_sound (ts : List FileInfo) :
    ∀ (ds : List FileInfo) (m : List Bool) (d : FileInfo),
      (d, (none : Option Nat)) ∈ (matchLoop ts ds m).1 →
      ∀ j, j < ts.length → j < m.length →
        ((matchLoop ts ds m).2).getD j true = false →
        d.isSpecialCase = false ∧
          ¬((ts.getD j fiDefault).dateTimePattern = d.dateTimePattern) := by
  intro ds
  induction ds with
  | nil => intro m d h; simp [matchLoop] at h
  | cons d0 ds ih =>
    intro m d h j hjt hjm hfin
    rw [matchLoop_cons] at h hfin
    have hfin2 : ((matchLoop ts ds (stepMask m (stepChoice ts d0 m))).2).getD j true
        = false := hfin
    rcases List.mem_cons.mp h with heq | hrest
    · have hd : d = d0 := congrArg Prod.fst heq
      subst hd
      have hoi : stepChoice ts d m = none := (congrArg Prod.snd heq).symm
      rw [hoi] at hfin2
      have hmj : m.getD j true = false := by
        cases hmv : m.getD j true with
        | false => rfl
        | true =>
          have hT : ((matchLoop ts ds (stepMask m none)).2).getD j true = true :=
            (matchLoop_mask_spec ts ds (stepMask m none) j).mpr (Or.inl hmv)
          rw [hT] at hfin2
          exact absurd hfin2 (by simp)
      exact stepChoice_none_spec ts d m hoi j hjt hjm hmj
    · cases hoi : stepChoice ts d0 m with
      | none =>
        rw [hoi] at hrest hfin2
        exact ih (stepMask m none) d hrest j hjt hjm hfin2
      | some i0 =>
        rw [hoi] at hrest hfin2
        refine ih (stepMask m (some i0)) d hrest j hjt ?_ hfin2
        rw [show stepMask m (some i0) = m.set i0 true from rfl]
        simpa using hjm

theorem logEntryFlags_no_feb (run : Name) (f : FSFile) :
    ¬ hasFlag (logEntryFlags run f) FLAG_NO_FEB_FILE := by
  unfold logEntryFlags processDataFlags
  cases harr : strIndex f.name arrMark <;> dsimp only <;> split_ifs <;> decide

theorem hasFlag_ite_or_iff2 (b1 b2 : Prop) [i1 : Decidable b1] [i2 : Decidable b2]
    (x C m : Nat) (hx : ¬ hasFlag x m) (hC : hasFlag C m) :
    (hasFlag (if b2 then (if b1 then x ||| C else x) ||| C else if b1 then x ||| C else x) m
      ↔ (b2 ∨ b1)) := by
  split_ifs with hb2 hb1 hb1 <;> simp [hasFlag_or_left, hx, hC, hb1, hb2]

theorem noFeb_iff (d : RunDir) (files : List FSFile)
    (hdir : d.dirExists = true) (hl : d.listing = some files) :
    hasFlag (CheckLogFiles d).flags FLAG_NO_FEB_FILE ↔
      ((CheckLogFilesFull d).pairs.any (fun p => p.2.isNone) = true ∨
        (0 < (CheckLogFilesFull d).dataFiles.length ∧
          (CheckLogFilesFull d).sortedTesters.length = 0)) := by
  unfold CheckLogFiles CheckLogFilesFull
  rw [hdir, hl]
  simp only [Bool.not_true, Bool.false_eq_true, if_false]
  have hbase : ¬ hasFlag ((files.foldl (logStep d.run) { result :=
      if d.logPresent = true then
        if d.logOpenable = true then { logExists := true }
        else { logExists := true, openErrorFiles := [logName d.run],
               flags := FLAG_FILE_OPEN }
      else { flags := FLAG_LOG_MISSING } }).result.flags) FLAG_NO_FEB_FILE := by
    rw [logFold_flags, hasFlag_or_left]
    rintro (h | h)
    · revert h
      dsimp only
      split_ifs <;> dsimp only <;> decide
    · rw [hasFlag_orList] at h
      obtain ⟨x, hx, hfx⟩ := h
      obtain ⟨f, hf, rfl⟩ := List.mem_map.mp hx
      exact logEntryFlags_no_feb d.run f hfx
  rw [hasFlag_ite_or_iff2 _ _ _ FLAG_NO_FEB_FILE FLAG_NO_FEB_FILE hbase (by decide)]
  simp only [Bool.and_eq_true, decide_eq_true_eq, gt_iff_lt] <;> tauto

theorem checkLogFull_pairs (d : RunDir) (files : List FSFile)
    (hdir : d.dirExists = true) (hl : d.listing = some files) :
    ((CheckLogFilesFull d).pairs
        = (matchLoop (CheckLogFilesFull d).sortedTesters (CheckLogFilesFull d).dataFiles
            (List.replicate (CheckLogFilesFull d).sortedTesters.length false)).1) ∧
    List.Sorted testerLe (CheckLogFilesFull d).sortedTesters := by
  constructor
  · unfold CheckLogFilesFull
    rw [hdir, hl]
    simp only [Bool.not_true, Bool.false_eq_true, if_false]
  · unfold CheckLogFilesFull
    rw [hdir, hl]
    simp only [Bool.not_true, Bool.false_eq_true, if_false]
    exact List.sorted_insertionSort testerLe _

/-- C2 (amended) — Matching is a single interleaved pass over the data
files in discovery order (not three separate passes): the testers are
sorted ascending by timestamp; a special-case (untimestamped) data file
takes the first still-unmatched tester (the chronologically earliest
remaining one), a timestamped data file takes the first still-unmatched
tester with the identical timestamp string; each tester is consumed at
most once and matches are never revised.  There is no nearest-time pass:
if a timestamped data file finds no identical-timestamp tester it stays
unmatched — any tester left unmatched at the end has a different
timestamp than every unmatched non-special data file — and the no-tester
flag is raised exactly when some data file went unmatched or when data
files exist but no tester was collected. -/
theorem c2_pairing (d : RunDir) (files : List FSFile)
    (hdir : d.dirExists = true) (hl : d.listing = some files) :
    ((CheckLogFilesFull d).pairs.map Prod.fst = (CheckLogFilesFull d).dataFiles) ∧
    List.Sorted testerLe (CheckLogFilesFull d).sortedTesters ∧
    ((CheckLogFilesFull d).pairs.filterMap Prod.snd).Nodup ∧
    (∀ p ∈ (CheckLogFilesFull d).pairs, ∀ i : Nat, p.2 = some i →
      i < (CheckLogFilesFull d).sortedTesters.length ∧
      (p.1.isSpecialCase = false →
        ((CheckLogFilesFull d).sortedTesters.getD i fiDefault).dateTimePattern
          = p.1.dateTimePattern)) ∧
    (∀ p ∈ (CheckLogFilesFull d).pairs, ∀ i : Nat, p.2 = some i →
      ∀ j, j < i →
        (p.1.isSpecialCase = true ∨
          ((CheckLogFilesFull d).sortedTesters.getD j fiDefault).dateTimePattern
            = p.1.dateTimePattern) →
        j ∈ (CheckLogFilesFull d).pairs.filterMap Prod.snd) ∧
    (∀ p ∈ (CheckLogFilesFull d).pairs, p.2 = none →
      ∀ j, j < (CheckLogFilesFull d).sortedTesters.length →
        j ∉ (CheckLogFilesFull d).pairs.filterMap Prod.snd →
        p.1.isSpecialCase = false ∧
          ¬(((CheckLogFilesFull d).sortedTesters.getD j fiDefault).dateTimePattern
            = p.1.dateTimePattern)) ∧
    (hasFlag (CheckLogFiles d).flags FLAG_NO_FEB_FILE ↔
      ((CheckLogFilesFull d).pairs.any (fun p => p.2.isNone) = true ∨
        (0 < (CheckLogFilesFull d).dataFiles.length ∧
          (CheckLogFilesFull d).sortedTesters.length = 0))) := by
  obtain ⟨hP, hSorted⟩ := checkLogFull_pairs d files hdir hl
  refine ⟨?_, hSorted, ?_, ?_, ?_, ?_, noFeb_iff d files hdir hl⟩
  · rw [hP]
    exact matchLoop_fst _ _ _
  · rw [hP]
    exact matchLoop_nodup _ _ _
  · rintro ⟨pd, poi⟩ hp i hpi
    dsimp only at hpi
    subst hpi
    rw [hP] at hp
    exact matchLoop_some_sound _ _ _ _ _ hp
  · rintro ⟨pd, poi⟩ hp i hpi j hj hcond
    dsimp only at hpi
    subst hpi
    rw [hP] at hp ⊢
    rcases matchLoop_some_min _ _ _ _ _ hp j hj (by exact hcond) with hmask | hmem
    · obtain ⟨hbound, _⟩ := matchLoop_some_sound _ _ _ _ _ hp
      have hjT : j < (CheckLogFilesFull d).sortedTesters.length := by omega
      rw [getD_replicate_false _ j hjT] at hmask
      exact absurd hmask (by simp)
    · exact hmem
  · rintro ⟨pd, poi⟩ hp hnone j hjT hnotmem
    dsimp only at hnone
    subst hnone
    rw [hP] at hp hnotmem
    have hfin : ((matchLoop (CheckLogFilesFull d).sortedTesters (CheckLogFilesFull d).dataFiles
        (List.replicate (CheckLogFilesFull d).sortedTesters.length false)).2).getD j true
          = false := by
      cases hv : ((matchLoop (CheckLogFilesFull d).sortedTesters (CheckLogFilesFull d).dataFiles
          (List.replicate (CheckLogFilesFull d).sortedTesters.length false)).2).getD j true with
      | false => rfl
      | true =>
        rcases (matchLoop_mask_spec _ _ _ j).mp hv with hinit | hmem
        · rw [getD_replicate_false _ j hjT] at hinit
          exact absurd hinit (by simp)
        · exact absurd hmem hnotmem
    refine matchLoop_none_sound _ _ _ pd hp j hjT ?_ hfin
    simpa using hjT

/-- C2 counterexample — a run with one timestamped data file (timestamp
240101_0930) and one tester file five minutes later (240101_0935): a
nearest-time pass would pair them, but the code leaves the data file
unmatched, leaves the tester unconsumed, and raises the no-tester flag. -/
theorem c2_pairing_counterexample :
    (CheckLogFilesFull dirNearestTime).pairs.map Prod.snd = [none] ∧
    (CheckLogFilesFull dirNearestTime).sortedTesters.length = 1 ∧
    (CheckLogFilesFull dirNearestTime).pairs.filterMap Prod.snd = [] ∧
    hasFlag (CheckLogFiles dirNearestTime).flags FLAG_NO_FEB_FILE ∧
    (CheckLogFilesFull dirNearestTime).dataFiles.length = 1 := by
  refine ⟨by decide, by decide, by decide, by decide, by decide⟩

/-- Witness for C2 at the near-miss-timestamp run. -/
theorem c2_pairing_witness :
    ((CheckLogFilesFull dirNearestTime).pairs.map Prod.fst
        = (CheckLogFilesFull dirNearestTime).dataFiles) ∧
    List.Sorted testerLe (CheckLogFilesFull dirNearestTime).sortedTesters ∧
    ((CheckLogFilesFull dirNearestTime).pairs.filterMap Prod.snd).Nodup ∧
    (∀ p ∈ (CheckLogFilesFull dirNearestTime).pairs, ∀ i : Nat, p.2 = some i →
      i < (CheckLogFilesFull dirNearestTime).sortedTesters.length ∧
      (p.1.isSpecialCase = false →
        ((CheckLogFilesFull dirNearestTime).sortedTesters.getD i fiDefault).dateTimePattern
          = p.1.dateTimePattern)) ∧
    (∀ p ∈ (CheckLogFilesFull dirNearestTime).pairs, ∀ i : Nat, p.2 = some i →
      ∀ j, j < i →
        (p.1.isSpecialCase = true ∨
          ((CheckLogFilesFull dirNearestTime).sortedTesters.getD j fiDefault).dateTimePattern
            = p.1.dateTimePattern) →
        j ∈ (CheckLogFilesFull dirNearestTime).pairs.filterMap Prod.snd) ∧
    (∀ p ∈ (CheckLogFilesFull dirNearestTime).pairs, p.2 = none →
      ∀ j, j < (CheckLogFilesFull dirNearestTime).sortedTesters.length →
        j ∉ (CheckLogFilesFull dirNearestTime).pairs.filterMap Prod.snd →
        p.1.isSpecialCase = false ∧
          ¬(((CheckLogFilesFull dirNearestTime).sortedTesters.getD j fiDefault).dateTimePattern
            = p.1.dateTimePattern)) ∧
    (hasFlag (CheckLogFiles dirNearestTime).flags FLAG_NO_FEB_FILE ↔
      ((CheckLogFilesFull dirNearestTime).pairs.any (fun p => p.2.isNone) = true ∨
        (0 < (CheckLogFilesFull dirNearestTime).dataFiles.length ∧
          (CheckLogFilesFull dirNearestTime).sortedTesters.length = 0))) :=
  c2_pairing dirNearestTime [sampleValidData, sampleTester0935] rfl rfl

theorem joinPath_inj (run a b : Name) (h : joinPath run a = joinPath run b) : a = b := by
  unfold joinPath at h
  have h2 := List.append_cancel_left h
  injection h2

theorem eoProcessInvalid_cons (run : Name) (pairs : List (Name × Option Name))
    (inv : Name) (invs : List Name) (ds : List Bool) :
    eoProcessInvalid run pairs (inv :: invs) ds =
      if endsWith inv dotLog then eoProcessInvalid run pairs invs ds
      else match pairs.find? (fun p => p.1 == inv) with
        | none => eoProcessInvalid run pairs invs ds
        | some p =>
          ((if (popDecision ds).1 then
              joinPath run p.1 ::
                (match p.2 with | some t => [joinPath run t] | none => [])
            else []) ++ (eoProcessInvalid run pairs invs (popDecision ds).2).1,
           (eoProcessInvalid run pairs invs (popDecision ds).2).2) := rfl

/-- C6 (amended) — In the invalid-pair stage of the cleanup, when the
collected pair list associates data file `dn` with tester `tn`, and no
other pair reuses either name, the two files are atomic with respect to
deletion: the data file's path is deleted if and only if the tester's
path is deleted; and processing the invalid entry for `dn` spends exactly
one confirmation, deleting both paths on acceptance and neither on
refusal.  (The pair list used here is the cleanup's own alphabetical-order
pairing, not the chronological pairing of the validation pass.) -/
theorem c6_pair_atomicity (run : Name) (pairs : List (Name × Option Name))
    (dn tn : Name) (invs : List Name) (ds : List Bool)
    (hp : (dn, some tn) ∈ pairs)
    (h1 : ∀ q ∈ pairs, q.1 = dn → q = (dn, some tn))
    (h2 : ∀ q ∈ pairs, q.1 ≠ tn)
    (h3 : ∀ q ∈ pairs, ∀ tq, q.2 = some tq → tq = tn → q = (dn, some tn))
    (h4 : ∀ q ∈ pairs, ∀ tq, q.2 = some tq → tq ≠ dn) :
    (joinPath run dn ∈ (eoProcessInvalid run pairs invs ds).1 ↔
      joinPath run tn ∈ (eoProcessInvalid run pairs invs ds).1) ∧
    (endsWith dn dotLog = false →
      pairs.find? (fun q => q.1 == dn) = some (dn, some tn) →
      eoProcessInvalid run pairs (dn :: invs) ds =
        ((if (popDecision ds).1 then [joinPath run dn, joinPath run tn] else []) ++
            (eoProcessInvalid run pairs invs (popDecision ds).2).1,
          (eoProcessInvalid run pairs invs (popDecision ds).2).2)) := by
  constructor
  · induction invs generalizing ds with
    | nil => simp [eoProcessInvalid]
    | cons inv invs ih =>
      rw [eoProcessInvalid_cons]
      by_cases hlog : (endsWith inv dotLog) = true
      · rw [if_pos hlog]
        exact ih ds
      · rw [if_neg hlog]
        cases hfind : pairs.find? (fun p => p.1 == inv) with
        | none => exact ih ds
        | some q =>
          dsimp only
          have hqmem : q ∈ pairs := List.mem_of_find?_eq_some hfind
          by_cases hqp : q = (dn, some tn)
          · subst hqp
            dsimp only
            by_cases hpd : ((popDecision ds).1 = true)
            · rw [if_pos hpd]
              refine iff_of_true ?_ ?_ <;> simp
            · rw [if_neg hpd]
              simp only [List.nil_append]
              exact ih (popDecision ds).2
          · have hq1ne : q.1 ≠ dn := fun hc => hqp (h1 q hqmem hc)
            have hnin1 : joinPath run dn ∉ (if (popDecision ds).1 then
                joinPath run q.1 ::
                  (match q.2 with | some t => [joinPath run t] | none => [])
              else ([] : List Name)) := by
              by_cases hpd : ((popDecision ds).1 = true)
              · rw [if_pos hpd]
                intro hmem
                rcases List.mem_cons.mp hmem with heq | hrest2
                · exact hq1ne (joinPath_inj run q.1 dn heq.symm)
                · cases hq2 : q.2 with
                  | none =>
                    rw [hq2] at hrest2
                    simp at hrest2
                  | some tq =>
                    rw [hq2] at hrest2
                    have htq : joinPath run dn = joinPath run tq := by simpa using hrest2
                    exact h4 q hqmem tq hq2 (joinPath_inj run dn tq htq).symm
              · rw [if_neg hpd]
                simp
            have hnin2 : joinPath run tn ∉ (if (popDecision ds).1 then
                joinPath run q.1 ::
                  (match q.2 with | some t => [joinPath run t] | none => [])
              else ([] : List Name)) := by
              by_cases hpd : ((popDecision ds).1 = true)
              · rw [if_pos hpd]
                intro hmem
                rcases List.mem_cons.mp hmem with heq | hrest2
                · exact h2 q hqmem (joinPath_inj run q.1 tn heq.symm)
                · cases hq2 : q.2 with
                  | none =>
                    rw [hq2] at hrest2
                    simp at hrest2
                  | some tq =>
                    rw [hq2] at hrest2
                    have htq : joinPath run tn = joinPath run tq := by simpa using hrest2
                    exact hqp (h3 q hqmem tq hq2 (joinPath_inj run tn tq htq).symm)
              · rw [if_neg hpd]
                simp
            simp only [List.mem_append]
            constructor
            · rintro (hin | hin)
              · exact absurd hin hnin1
              · exact Or.inr ((ih (popDecision ds).2).mp hin)
            · rintro (hin | hin)
              · exact absurd hin hnin2
              · exact Or.inr ((ih (popDecision ds).2).mpr hin)
  · intro hlog hfind
    rw [eoProcessInvalid_cons, hlog]
    simp only [Bool.false_eq_true, if_false]
    rw [hfind]

/-- C6 counterexample — a run with a bare special-case data file of
invalid content and two testers whose alphabetical and chronological
orders disagree: the validation pass (section 4.3) pairs the data file
with the chronologically earliest tester (timestamp 240101_0900), but the
cleanup pairs it with the alphabetically first tester (timestamp
240101_0905); accepting the confirmation deletes the data file together
with the alphabetical tester, while the section-4.3-paired tester
survives — the section-4.3 pair is not deleted together. -/
theorem c6_pair_atomicity_counterexample :
    (CheckLogFilesFull dirPairMismatch).sortedTesters.map FileInfo.fileName
      = [sampleTesterB0900.name, sampleTesterA0905.name] ∧
    (CheckLogFilesFull dirPairMismatch).pairs.map Prod.snd = [some 0] ∧
    eoPairs dirPairMismatch.run
        [sampleBareInvalidData, sampleTesterB0900, sampleTesterA0905]
      = [(sampleBareInvalidData.name, some sampleTesterA0905.name)] ∧
    extraOmnes [dirPairMismatch] [true]
      = [joinPath dirPairMismatch.run sampleBareInvalidData.name,
         joinPath dirPairMismatch.run sampleTesterA0905.name] ∧
    joinPath dirPairMismatch.run sampleTesterB0900.name ∉
      extraOmnes [dirPairMismatch] [true] := by
  refine ⟨by decide, by decide, by decide, by decide, by decide⟩

/-- Witness for C6 at the mismatch run's cleanup pair list. -/
theorem c6_pair_atomicity_witness :
    ((joinPath dirPairMismatch.run sampleBareInvalidData.name ∈
        (eoProcessInvalid dirPairMismatch.run
          [(sampleBareInvalidData.name, some sampleTesterA0905.name)]
          [sampleBareInvalidData.name] [true]).1) ↔
      (joinPath dirPairMismatch.run sampleTesterA0905.name ∈
        (eoProcessInvalid dirPairMismatch.run
          [(sampleBareInvalidData.name, some sampleTesterA0905.name)]
          [sampleBareInvalidData.name] [true]).1)) ∧
    (endsWith sampleBareInvalidData.name dotLog = false →
      (([(sampleBareInvalidData.name, some sampleTesterA0905.name)] :
          List (Name × Option Name)).find?
            (fun q => q.1 == sampleBareInvalidData.name)
        = some (sampleBareInvalidData.name, some sampleTesterA0905.name)) →
      eoProcessInvalid dirPairMismatch.run
          [(sampleBareInvalidData.name, some sampleTesterA0905.name)]
          (sampleBareInvalidData.name :: [sampleBareInvalidData.name]) [true] =
        ((if (popDecision [true]).1 then
            [joinPath dirPairMismatch.run sampleBareInvalidData.name,
             joinPath dirPairMismatch.run sampleTesterA0905.name] else []) ++
            (eoProcessInvalid dirPairMismatch.run
              [(sampleBareInvalidData.name, some sampleTesterA0905.name)]
              [sampleBareInvalidData.name] (popDecision [true]).2).1,
          (eoProcessInvalid dirPairMismatch.run
            [(sampleBareInvalidData.name, some sampleTesterA0905.name)]
            [sampleBareInvalidData.name] (popDecision [true]).2).2)) :=
  c6_pair_atomicity dirPairMismatch.run
    [(sampleBareInvalidData.name, some sampleTesterA0905.name)]
    sampleBareInvalidData.name sampleTesterA0905.name
    [sampleBareInvalidData.name] [true]
    (by decide) (by decide) (by decide) (by decide) (by decide)

theorem endsWith_joinPath (a f s : Name) (hs : ('/' : Char) ∉ s)
    (h : endsWith (joinPath a f) s = true) : endsWith f s = true := by
  obtain ⟨t, ht⟩ := List.isSuffixOf_iff_suffix.mp h
  unfold joinPath at ht
  by_cases hlen : a.length + 1 ≤ t.length
  · have ht2 : t ++ s = (a ++ ['/']) ++ f := by
      rw [List.append_assoc]
      exact ht
    have hsplit : t.take (a.length + 1) ++ t.drop (a.length + 1) = t :=
      List.take_append_drop _ _
    rw [← hsplit, List.append_assoc] at ht2
    have hl : (t.take (a.length + 1)).length = (a ++ ['/']).length := by
      rw [List.length_take, List.length_append]
      simp [min_eq_left hlen]
    obtain ⟨h1, h2⟩ := List.append_inj ht2 hl
    exact List.isSuffixOf_iff_suffix.mpr ⟨t.drop (a.length + 1), h2⟩
  · exfalso
    have hta : t.length ≤ a.length := by omega
    have hsplit : a.take t.length ++ a.drop t.length = a := List.take_append_drop _ _
    rw [← hsplit, List.append_assoc] at ht
    have hl : t.length = (a.take t.length).length := by
      rw [List.length_take]
      exact (min_eq_left hta).symm
    obtain ⟨h1, h2⟩ := List.append_inj ht hl
    apply hs
    rw [h2]
    exact List.mem_append.mpr (Or.inr (List.mem_cons_self _ _))

theorem endsWith_joinPath_log (a f : Name) (h : endsWith (joinPath a f) dotLog = true) :
    endsWith f dotLog = true :=
  endsWith_joinPath a f dotLog (by decide) h

theorem endsWith_eoPath_log (run : Name) (sd : Option Name) (f : Name)
    (h : endsWith (eoPath run sd f) dotLog = true) : endsWith f dotLog = true := by
  cases sd with
  | none => exact endsWith_joinPath_log run f h
  | some s => exact endsWith_joinPath_log s f (endsWith_joinPath_log run _ h)

theorem eoCategory_no_log (run : Name) (sd : Option Name) (files0 : List Name)
    (ds : List Bool) (p : Name) (hp : p ∈ (eoCategory run sd files0 ds).1) :
    endsWith p dotLog = false := by
  unfold eoCategory at hp
  dsimp only at hp
  by_cases he : ((files0.filter (fun f => !(endsWith f dotLog))).isEmpty = true)
  · rw [if_pos he] at hp
    simp at hp
  · rw [if_neg he] at hp
    dsimp only at hp
    by_cases hpd : ((popDecision ds).1 = true)
    · rw [if_pos hpd] at hp
      obtain ⟨f, hf, rfl⟩ := List.mem_map.mp hp
      have hff := List.of_mem_filter hf
      cases hev : endsWith (eoPath run sd f) dotLog with
      | false => rfl
      | true => exact absurd (endsWith_eoPath_log run sd f hev) (by simpa using hff)
    · rw [if_neg hpd] at hp
      simp at hp

theorem eoProtected_no_log (run : Name) (sd : Name) (files0 : List Name)
    (ds : List Bool) (p : Name) (hp : p ∈ (eoProtected run sd files0 ds).1) :
    endsWith p dotLog = false := by
  unfold eoProtected at hp
  dsimp only at hp
  by_cases he : ((files0.filter (fun f =>
      !(endsWith f dotLog) &&
        !(endsWith f electTxtSuffix || endsWith f holesTxtSuffix))).isEmpty = true)
  · rw [if_pos he] at hp
    simp at hp
  · rw [if_neg he] at hp
    dsimp only at hp
    by_cases hpd : ((popDecision ds).1 = true)
    · rw [if_pos hpd] at hp
      obtain ⟨f, hf, rfl⟩ := List.mem_map.mp hp
      have hff := List.of_mem_filter hf
      simp only [Bool.and_eq_true, Bool.not_eq_true'] at hff
      cases hev : endsWith (eoPath run (some sd) f) dotLog with
      | false => rfl
      | true => exact absurd (endsWith_eoPath_log run (some sd) f hev) (by simp [hff.1])
    · rw [if_neg hpd] at hp
      simp at hp

theorem eoProcessInvalid_log_source (run : Name) (pairs : List (Name × Option Name)) :
    ∀ (invs : List Name) (ds : List Bool) (p : Name),
      p ∈ (eoProcessInvalid run pairs invs ds).1 → endsWith p dotLog = true →
      ∃ dn tn, (dn, some tn) ∈ pairs ∧ p = joinPath run tn ∧
        endsWith tn dotLog = true := by
  intro invs
  induction invs with
  | nil =>
    intro ds p hp
    simp [eoProcessInvalid] at hp
  | cons inv invs ih =>
    intro ds p hp hlog
    rw [eoProcessInvalid_cons] at hp
    by_cases hl : ((endsWith inv dotLog) = true)
    · rw [if_pos hl] at hp
      exact ih ds p hp hlog
    · rw [if_neg hl] at hp
      cases hfind : pairs.find? (fun q => q.1 == inv) with
      | none =>
        rw [hfind] at hp
        exact ih ds p hp hlog
      | some q =>
        rw [hfind] at hp
        dsimp only at hp
        rcases List.mem_append.mp hp with hin | hin
        · by_cases hpd : ((popDecision ds).1 = true)
          · rw [if_pos hpd] at hin
            rcases List.mem_cons.mp hin with heq | htail
            · exfalso
              have hq1 : q.1 = inv := by simpa using (List.find?_some hfind)
              rw [heq] at hlog
              have hq1log := endsWith_joinPath_log run q.1 hlog
              rw [hq1] at hq1log
              exact hl hq1log
            · cases hq2 : q.2 with
              | none =>
                rw [hq2] at htail
                simp at htail
              | some tq =>
                rw [hq2] at htail
                have hptq : p = joinPath run tq := by simpa using htail
                have hqeta : q = (q.1, some tq) := by
                  rw [← hq2]
                refine ⟨q.1, tq, ?_, hptq, ?_⟩
                · rw [← hqeta]
                  exact List.mem_of_find?_eq_some hfind
                · rw [hptq] at hlog
                  exact endsWith_joinPath_log run tq hlog
          · rw [if_neg hpd] at hin
            simp at hin
        · exact ih (popDecision ds).2 p hin hlog

theorem extraOmnesDir_log_source (d : RunDir) (ds : List Bool) (p : Name)
    (hp : p ∈ (extraOmnesDir d ds).1) (hlog : endsWith p dotLog = true) :
    ∃ files, d.listing = some files ∧
      ∃ dn tn, (dn, some tn) ∈ eoPairs d.run files ∧ p = joinPath d.run tn ∧
        endsWith tn dotLog = true := by
  unfold extraOmnesDir at hp
  dsimp only at hp
  have hcat : ∀ (sd : Option Name) (files0 : List Name) (ds0 : List Bool),
      p ∈ (eoCategory d.run sd files0 ds0).1 → False := by
    intro sd files0 ds0 hmem
    have hf := eoCategory_no_log d.run sd files0 ds0 p hmem
    rw [hf] at hlog
    exact absurd hlog (by simp)
  have hprot : ∀ (sd : Name) (files0 : List Name) (ds0 : List Bool),
      p ∈ (eoProtected d.run sd files0 ds0).1 → False := by
    intro sd files0 ds0 hmem
    have hf := eoProtected_no_log d.run sd files0 ds0 p hmem
    rw [hf] at hlog
    exact absurd hlog (by simp)
  have hstage : p ∈ (eoStage1 d ds).1 := by
    rcases List.mem_append.mp hp with hp | hmem
    · rcases List.mem_append.mp hp with hp | hmem
      · rcases List.mem_append.mp hp with hp | hmem
        · rcases List.mem_append.mp hp with hp | hmem
          · rcases List.mem_append.mp hp with hp | hmem
            · rcases List.mem_append.mp hp with hp | hmem
              · rcases List.mem_append.mp hp with hp | hmem
                · exact hp
                · exact absurd hmem (fun h => hcat _ _ _ h)
              · exact absurd hmem (fun h => hcat _ _ _ h)
            · exact absurd hmem (fun h => hcat _ _ _ h)
          · exact absurd hmem (fun h => hcat _ _ _ h)
        · exact absurd hmem (fun h => hcat _ _ _ h)
      · exact absurd hmem (fun h => hprot _ _ _ h)
    · exact absurd hmem (fun h => hprot _ _ _ h)
  unfold eoStage1 at hstage
  by_cases hc : ((CheckLogFiles d).dataFileCount > 0)
  · rw [if_pos hc] at hstage
    cases hls : d.listing with
    | none =>
      rw [hls] at hstage
      simp at hstage
    | some files =>
      rw [hls] at hstage
      obtain ⟨dn, tn, hpair, hptn, htnlog⟩ :=
        eoProcessInvalid_log_source d.run (eoPairs d.run files)
          (CheckLogFiles d).invalidFiles ds p hstage hlog
      exact ⟨files, rfl, dn, tn, hpair, hptn, htnlog⟩
  · rw [if_neg hc] at hstage
    simp at hstage

/-- C7 (amended) — In the cleanup orchestrator, the `.log` exemption holds
for every grouped error category and for the protected trim/conn areas,
but not for the tester component of an invalid data–tester pair: any
deleted path ending in `.log` is the path of a tester file that the
cleanup's pair list matched to some data file (and whose own name ends in
`.log`); such a tester is deleted despite its `.log` suffix. -/
theorem c7_log_protection (dirs : List RunDir) (ds : List Bool) (p : Name)
    (hp : p ∈ extraOmnes dirs ds) (hlog : endsWith p dotLog = true) :
    ∃ d ∈ dirs, ∃ files, d.listing = some files ∧
      ∃ dn tn, (dn, some tn) ∈ eoPairs d.run files ∧ p = joinPath d.run tn ∧
        endsWith tn dotLog = true := by
  revert hp
  induction dirs generalizing ds with
  | nil =>
    intro hp
    simp [extraOmnes] at hp
  | cons d dirs ih =>
    intro hp
    rw [show extraOmnes (d :: dirs) ds
        = (extraOmnesDir d ds).1 ++ extraOmnes dirs (extraOmnesDir d ds).2 from rfl] at hp
    rcases List.mem_append.mp hp with h1 | h2
    · obtain ⟨files, hls, dn, tn, hpair, hptn, htnlog⟩ :=
        extraOmnesDir_log_source d ds p h1 hlog
      exact ⟨d, List.mem_cons_self _ _, files, hls, dn, tn, hpair, hptn, htnlog⟩
    · obtain ⟨d2, hd2, rest⟩ := ih (extraOmnesDir d ds).2 h2
      exact ⟨d2, List.mem_cons_of_mem _ hd2, rest⟩

/-- C7 counterexample — a run with an invalid data file whose matched
tester is named `tester_febs_A_arr_240101_0900.log`: accepting the pair
confirmation deletes that `.log`-suffixed file. -/
theorem c7_log_protection_counterexample :
    joinPath dirLogTester.run sampleTesterDotLog.name ∈ extraOmnes [dirLogTester] [true] ∧
    endsWith (joinPath dirLogTester.run sampleTesterDotLog.name) dotLog = true ∧
    endsWith sampleTesterDotLog.name dotLog = true := by
  refine ⟨by decide, by decide, by decide⟩

/-- Witness for C7 at the `.log`-named-tester run. -/
theorem c7_log_protection_witness :
    (joinPath dirLogTester.run sampleTesterDotLog.name ∈ extraOmnes [dirLogTester] [true] ∧
      endsWith (joinPath dirLogTester.run sampleTesterDotLog.name) dotLog = true) ∧
    (∃ d ∈ [dirLogTester], ∃ files, d.listing = some files ∧
      ∃ dn tn, (dn, some tn) ∈ eoPairs d.run files ∧
        joinPath dirLogTester.run sampleTesterDotLog.name = joinPath d.run tn ∧
        endsWith tn dotLog = true) :=
  ⟨⟨by decide, by decide⟩,
    c7_log_protection [dirLogTester] [true]
      (joinPath dirLogTester.run sampleTesterDotLog.name) (by decide) (by decide)⟩

end Exorcism
